import Mathlib

/-!
# Verification of the GPSSCAN survey-photo naming core

Shallow embedding of the GPSSCAN sources (`開発用GPSSCAN.py` and
`開発用GPSSCAN_new.py`) together with proofs about the embedded operations.

Python `float` values are modelled as exact rationals (`ℚ`); the claims under
study only involve additions, subtractions, multiplications and order
comparisons of coordinate values, which are exact in this range.  Distances
computed by `math.sqrt` in the source are represented by their squares, and
comparisons against a threshold are performed against the squared threshold;
since `sqrt` is strictly monotone on non-negative reals, the branch taken at
every comparison in the source is unchanged by this representation.
-/

set_option autoImplicit false

namespace GPSSCAN

/-! ## Python string primitives used by the parsers and the naming engine -/

/-- Characters treated as whitespace by Python's `str.strip()` (the subset
relevant to text lines: space, tab, CR, LF, vertical tab, form feed). -/
def isPySpace (c : Char) : Bool :=
  c = ' ' || c = '\t' || c = '\n' || c = '\r' || c = '\x0b' || c = '\x0c'

/-- Python `str.strip()`: drop whitespace from both ends. -/
def pyStrip (s : String) : String :=
  ⟨((s.data.dropWhile isPySpace).reverse.dropWhile isPySpace).reverse⟩

/-- Split a character list at every occurrence of `sep` (Python `str.split(sep)`
with a one-character separator: empty pieces are kept). -/
def splitCharsAux (sep : Char) : List Char → List Char → List (List Char)
  | [], acc => [acc.reverse]
  | c :: cs, acc =>
    if c = sep then acc.reverse :: splitCharsAux sep cs []
    else splitCharsAux sep cs (c :: acc)

/-- Python `line.split(',')`. -/
def pySplitComma (s : String) : List String :=
  (splitCharsAux ',' s.data []).map (fun l => ⟨l⟩)

/-- Python `str.startswith(pre)`. -/
def pyStartsWith (s pre : String) : Bool :=
  pre.data.isPrefixOf s.data

/-- Substring test on character lists: `sub` occurs contiguously in `l`. -/
def charsInfixOf (sub : List Char) : List Char → Bool
  | [] => sub.isEmpty
  | c :: tl => sub.isPrefixOf (c :: tl) || charsInfixOf sub tl

/-- Python `sub in s` substring membership. -/
def pyContains (s sub : String) : Bool :=
  charsInfixOf sub.data s.data

/-- Index of the last `'.'` in a character list, if any. -/
def rfindDotAux : List Char → Nat → Option Nat → Option Nat
  | [], _, acc => acc
  | c :: cs, i, acc => rfindDotAux cs (i + 1) (if c = '.' then some i else acc)

/-- `os.path.splitext` for a bare file name (no directory separators): split at
the last dot unless every character before it is a dot (so `".bashrc"` keeps
its leading-dot name intact, as in CPython's `genericpath._splitext`). -/
def splitext (s : String) : String × String :=
  match rfindDotAux s.data 0 none with
  | none => (s, "")
  | some k =>
    if (s.data.take k).all (fun c => c = '.') then (s, "")
    else (⟨s.data.take k⟩, ⟨s.data.drop k⟩)

/-- Parse an optionally signed decimal literal `[+|-]digits[.digits]` /
`[+|-].digits` as an exact rational.  This is the subset of Python `float`
syntax exercised by the survey files (the source never feeds exponent forms,
`inf`/`nan` or underscores to `float`); anything outside the subset is a parse
failure, as a `ValueError` is in the source. -/
def parseDigits : List Char → Option ℕ
  | [] => none
  | cs =>
    if cs.all Char.isDigit then
      some (cs.foldl (fun acc c => acc * 10 + (c.toNat - '0'.toNat)) 0)
    else none

def pyFloat? (s : String) : Option ℚ :=
  let withSign : List Char → Option ℚ := fun cs =>
    match cs.span (fun c => c ≠ '.') with
    | (intPart, []) => (parseDigits intPart).map (fun n => (n : ℚ))
    | (intPart, _dot :: fracPart) =>
      if intPart.isEmpty ∧ fracPart.isEmpty then none
      else
        let ip : Option ℕ := if intPart.isEmpty then some 0 else parseDigits intPart
        let fp : Option ℕ := if fracPart.isEmpty then some 0 else parseDigits fracPart
        match ip, fp with
        | some i, some f => some ((i : ℚ) + (f : ℚ) / ((10 : ℚ) ^ fracPart.length))
        | _, _ => none
  match s.data with
  | '+' :: rest => withSign rest
  | '-' :: rest => (withSign rest).map Neg.neg
  | cs => withSign cs

/-- Python `int(s)` on an already-stripped string: optional sign plus digits. -/
def pyInt? (s : String) : Option ℤ :=
  match s.data with
  | '+' :: rest => (parseDigits rest).map (fun n => (n : ℤ))
  | '-' :: rest => (parseDigits rest).map (fun n => -(n : ℤ))
  | cs => (parseDigits cs).map (fun n => (n : ℤ))

/-! ## Data model

`SimPoint` embeds one entry of `self.sim_points` (`開発用GPSSCAN_new.py`,
`load_sim_points`): keys `点番` (point number), `点名` (point name), `X座標`,
`Y座標`, `Z座標`.

`PhotoRow` embeds one row of `self.photos_tree`: the embedded fields are
`values[0]` (original file name), `values[1]` (new file name), `values[3]`
(landscape 遠景/近景/不明), `values[6]` (matched point identifier) and
`values[7]` (distance cell).  `values[2]` (capture time) and `values[4]`,
`values[5]` (coordinate display strings) are written but never read by the
matching and naming code, so they are not carried.  The distance cell holds
either the empty string or a formatted `f"{d:.1f}m"` string; it is embedded as
`Option ℚ` (`none` = empty cell, `some d` = a formatted distance), since the
engine only ever writes it or clears it and branches on no part of its text.

`GpsData` embeds one `self.photo_gps_data[photo]` dictionary entry with its
optional keys `x_coord`, `y_coord`, `original_x_coord`, `original_y_coord`
(`none` = key absent). -/

structure SimPoint where
  pointNum : String
  pointName : String
  x : ℚ
  y : ℚ
  z : ℚ
deriving DecidableEq

structure PhotoRow where
  original : String
  newName : String
  landscape : String
  matching : String
  distance : Option ℚ
deriving DecidableEq

structure GpsData where
  x_coord : Option ℚ
  y_coord : Option ℚ
  original_x_coord : Option ℚ
  original_y_coord : Option ℚ
deriving DecidableEq

/-- The mutable registries of the naming engine: the photo tree rows (in tree
order) and the `photo_gps_data` dictionary, embedded as an association list
keyed by original file name (`load_photos` fills it with one entry per file,
so keys are distinct in real states). -/
structure NamingState where
  rows : List PhotoRow
  gps : List (String × GpsData)
deriving DecidableEq

/-- The configuration flags read by the naming code
(`use_point_name`, `use_landscape_suffix`, `force_point_name_for_special`). -/
structure NamingConfig where
  use_point_name : Bool
  use_landscape_suffix : Bool
  force_point_name_for_special : Bool
deriving DecidableEq

/-- Dictionary lookup (`photo_gps_data[k]` / `k in photo_gps_data`). -/
def gpsLookup (k : String) : List (String × GpsData) → Option GpsData
  | [] => none
  | (k', v) :: rest => if k' = k then some v else gpsLookup k rest

/-- Dictionary value mutation: rewrite the entry stored under `k`.  (On an
association list with distinct keys this is exactly the source's in-place
mutation of `photo_gps_data[k]`.) -/
def gpsUpdate (k : String) (f : GpsData → GpsData) (l : List (String × GpsData)) :
    List (String × GpsData) :=
  l.map (fun p => if p.1 = k then (p.1, f p.2) else p)

/-! ## NamingAssigner: `create_filename` (`開発用GPSSCAN_new.py` 1729-1975)

The function builds the candidate base name, collects the "existing photos"
(`current_matching == identifier`, same landscape when the landscape suffix is
in use, different original file name), and for each collected photo whose new
file name equals the base name: restores the photo's coordinates from
`original_x_coord` / `original_y_coord` when both were recorded, then blanks
the photo's new file name and clears its matching point and distance
(`updated_values[1] = ""`, `[6] = ""`, `[7] = ""`).  It returns the base name
for the caller to install.  The source also computes a `used_numbers` set of
numeric suffixes (seeded `{1, 2}`); that set is assigned and never read, so it
has no effect on the state or the result and is not carried here. -/

/-- The landscape-type suffix: `"-1" if landscape_type == "遠景" else "-2"`. -/
def landscapeSuffix (lt : String) : String :=
  if lt = "遠景" then "-1" else "-2"

/-- The special-point identifier override (lines 1738-1745): when a point is
supplied and `force_point_name_for_special` is set, a point whose stripped
name contains `基準点` or `引照点` forces the identifier to that name. -/
def special_identifier (cfg : NamingConfig) (identifier : String)
    (point_data : Option SimPoint) : String :=
  match point_data with
  | none => identifier
  | some pd =>
    if cfg.force_point_name_for_special then
      let point_name := pyStrip pd.pointName
      if pyContains point_name "基準点" || pyContains point_name "引照点" then point_name
      else identifier
    else identifier

/-- The collision (demotion) condition: the row is a collected "existing
photo" (same matched identifier, same landscape when `checkLand`, different
original) whose new file name equals the computed base name. -/
def demoteCond (identifier landscape_type base original_filename : String)
    (checkLand : Bool) (r : PhotoRow) : Bool :=
  r.matching == identifier && (!checkLand || r.landscape == landscape_type) &&
    r.original != original_filename && r.newName == base

/-- Demotion of one row: `updated_values[1] = ""; [6] = ""; [7] = ""`. -/
def demoteRow (r : PhotoRow) : PhotoRow :=
  { r with newName := "", matching := "", distance := none }

/-- Coordinate restore on demotion (lines 1839-1847): when both original
coordinates were recorded, write them back into `x_coord` / `y_coord`. -/
def restoreOriginal (g : GpsData) : GpsData :=
  match g.original_x_coord, g.original_y_coord with
  | some ox, some oy => { g with x_coord := some ox, y_coord := some oy }
  | _, _ => g

/-- Apply the demotion loop: every row satisfying `cond` is blanked, and its
`photo_gps_data` entry (when present) has its coordinates restored. -/
def applyDemotions (cond : PhotoRow → Bool) (st : NamingState) : NamingState :=
  { rows := st.rows.map (fun r => if cond r then demoteRow r else r),
    gps := st.rows.foldl
      (fun acc r => if cond r then gpsUpdate r.original restoreOriginal acc else acc)
      st.gps }

/-- The base file name computed by `create_filename`: with the landscape
suffix in use, `identifier + suffix + ext` after the `不明` → `近景`
defaulting; otherwise `identifier + ext`. -/
def create_base_name (cfg : NamingConfig) (identifier0 original_filename landscape_type0 : String)
    (point_data : Option SimPoint) : String :=
  let ext := (splitext original_filename).2
  let identifier := special_identifier cfg identifier0 point_data
  if cfg.use_landscape_suffix then
    let landscape_type := if landscape_type0 = "不明" then "近景" else landscape_type0
    identifier ++ landscapeSuffix landscape_type ++ ext
  else identifier ++ ext

/-- The demotion condition checked by `create_filename` against every tree
row, with the identifier/landscape/base name it computes from its
arguments. -/
def assignDemoteCond (cfg : NamingConfig) (identifier0 original_filename landscape_type0 : String)
    (point_data : Option SimPoint) : PhotoRow → Bool :=
  let identifier := special_identifier cfg identifier0 point_data
  let base := create_base_name cfg identifier0 original_filename landscape_type0 point_data
  if cfg.use_landscape_suffix then
    let landscape_type := if landscape_type0 = "不明" then "近景" else landscape_type0
    demoteCond identifier landscape_type base original_filename true
  else
    demoteCond identifier "" base original_filename false

/-- `create_filename(identifier, original_filename, landscape_type, point_data)`:
returns the updated state and the generated file name. -/
def create_filename (cfg : NamingConfig) (identifier0 original_filename landscape_type0 : String)
    (point_data : Option SimPoint) (st : NamingState) : NamingState × String :=
  (applyDemotions (assignDemoteCond cfg identifier0 original_filename landscape_type0 point_data) st,
   create_base_name cfg identifier0 original_filename landscape_type0 point_data)

/-! ## The `Assign` protocol

Both call sites of `create_filename` — the landscape-confirmation dialog
(lines 1686-1707) and `auto_match_by_gps` (lines 2329-2346) — follow the call
by the same row update (`values[1] = new_filename`, `values[3] = landscape`,
`values[6] = identifier`, `values[7] = distance`, applied to the first row
whose `values[0]` equals the photo name, then `break`) and by snapping the
photo's `photo_gps_data` coordinates to the matched point's coordinates. -/

/-- Update the first row satisfying `p` (the tree scan with `break`). -/
def updateFirst (p : PhotoRow → Bool) (f : PhotoRow → PhotoRow) :
    List PhotoRow → List PhotoRow
  | [] => []
  | r :: rest => if p r then f r :: rest else r :: updateFirst p f rest

/-- The caller-side row update after `create_filename`: install `newName`,
landscape, matched identifier and distance on the photo's row. -/
def callerUpdate (newName landscape_type identifier : String) (d2 : ℚ)
    (r : PhotoRow) : PhotoRow :=
  { r with newName := newName, landscape := landscape_type,
           matching := identifier, distance := some d2 }

/-- The caller-side coordinate snap: the photo's stored coordinates are set to
the matched point's coordinates. -/
def snapTo (point : SimPoint) (g : GpsData) : GpsData :=
  { g with x_coord := some point.x, y_coord := some point.y }

/-- The state transformation common to both `create_filename` call sites:
demotions, then the first-row update, then the coordinate snap under the
photo's key. -/
def assignCore (cond p : PhotoRow → Bool) (f : PhotoRow → PhotoRow) (o : String)
    (snapF : GpsData → GpsData) (st : NamingState) : NamingState :=
  let st1 := applyDemotions cond st
  { rows := updateFirst p f st1.rows, gps := gpsUpdate o snapF st1.gps }

/-- One full `Assign(photo, point, category)` call: `create_filename` plus the
caller's row update and coordinate snap.  `d2` is the squared matching
distance recorded in the distance cell. -/
def assign_photo (cfg : NamingConfig) (identifier photo_name landscape_type : String)
    (point : SimPoint) (d2 : ℚ) (st : NamingState) : NamingState × String :=
  let newName := create_base_name cfg identifier photo_name landscape_type (some point)
  (assignCore (assignDemoteCond cfg identifier photo_name landscape_type (some point))
      (fun r => r.original == photo_name)
      (callerUpdate newName landscape_type identifier d2)
      photo_name (snapTo point) st,
   newName)

/-! ## SurveyNetworkParser: `load_sim_points` (`開発用GPSSCAN_new.py` 388-497)

The file is opened with `encoding='shift_jis', errors='ignore'` and read into
a line list; the embedding takes the decoded line list directly.  The local
`has_negative` flag is written by the source but never read afterwards, so it
is not carried.  The parcel dictionaries carry `地番` (name) and `座標`
(coordinates); the extra `種別`/`点数` keys stored for D00 parcels are the
stripped `parts[1]` and the coordinate count, never read by the code under
study, and are not carried. -/

structure Parcel where
  name : String
  coords : List (ℚ × ℚ)
deriving DecidableEq

structure SimParseState where
  sim_points : List SimPoint
  landparcel_data : List Parcel
deriving DecidableEq

/-- Outcome of the `A01` branch: `hang` is the `continue` statement executed
when a stripped coordinate field is empty — inside the surrounding `while`
loop it skips the terminal `i += 1`, so the same line is reprocessed;
`next st` falls through to `i += 1` with the (possibly updated) state. -/
inductive A01Result
  | hang
  | next (st : SimParseState)
deriving DecidableEq

/-- The `A01` branch (lines 404-440). -/
def stepA01 (line : String) (st : SimParseState) : A01Result :=
  let parts := pySplitComma line
  if 5 ≤ parts.length then
    let point_num := pyStrip (parts.getD 1 "")
    let point_name := pyStrip (parts.getD 2 "")
    let x_str := pyStrip (parts.getD 3 "")
    let y_str := pyStrip (parts.getD 4 "")
    if x_str = "" ∨ y_str = "" then A01Result.hang
    else
      match pyFloat? x_str, pyFloat? y_str with
      | some x, some y =>
        let zres : Option ℚ :=
          if 5 < parts.length then
            let z_str := pyStrip (parts.getD 5 "")
            if z_str = "" then some 0 else pyFloat? z_str
          else some 0
        match zres with
        | some z =>
          A01Result.next
            { st with sim_points := st.sim_points ++ [⟨point_num, point_name, x, y, z⟩] }
        | none => A01Result.next st
      | _, _ => A01Result.next st
  else A01Result.next st

/-- The coordinate loop of the `A02` branch (lines 452-463): for `j` in
`range(point_count)`, parse line `i + 1 + j` when it exists; a line with fewer
than two fields contributes nothing; the first field is read as `y`, the
second as `x`, and the pair is appended as `(x, y)`; a field that fails
`float()` raises `ValueError`, abandoning the whole record (`none`). -/
def a02Coords (lines : List String) : Nat → Nat → Option (List (ℚ × ℚ))
  | _, 0 => some []
  | idx, k + 1 =>
    match lines[idx]? with
    | none => a02Coords lines (idx + 1) k
    | some raw =>
      let coord_parts := pySplitComma (pyStrip raw)
      if 2 ≤ coord_parts.length then
        match pyFloat? (pyStrip (coord_parts.getD 0 "")) with
        | none => none
        | some yv =>
          match pyFloat? (pyStrip (coord_parts.getD 1 "")) with
          | none => none
          | some xv => (a02Coords lines (idx + 1) k).map (fun rest => (xv, yv) :: rest)
      else a02Coords lines (idx + 1) k

/-- Reference reading of one parcel coordinate line, written from the claim:
the line's first field is interpreted as the `y` coordinate and its second
field as the `x` coordinate, and the pair is stored as `(x, y)`; a line with
fewer than two fields contributes nothing (`some none`); a line whose first
two fields do not both parse as floats is a failure (`none`). -/
def a02LineRead (raw : String) : Option (Option (ℚ × ℚ)) :=
  let ps := pySplitComma (pyStrip raw)
  if 2 ≤ ps.length then
    match pyFloat? (pyStrip (ps.getD 0 "")), pyFloat? (pyStrip (ps.getD 1 "")) with
    | some yv, some xv => some (some (xv, yv))
    | _, _ => none
  else some none

/-- Reference collector over the `point_count` following lines, assembled
from `a02LineRead` (out-of-range lines contribute nothing). -/
def a02RefCoords (lines : List String) : Nat → Nat → Option (List (ℚ × ℚ))
  | _, 0 => some []
  | idx, k + 1 =>
    match lines[idx]? with
    | none => a02RefCoords lines (idx + 1) k
    | some raw =>
      match a02LineRead raw with
      | none => none
      | some none => a02RefCoords lines (idx + 1) k
      | some (some xy) => (a02RefCoords lines (idx + 1) k).map (fun rest => xy :: rest)

/-- The `A02` branch (lines 443-472), returning the new state and the next
cursor value.  On a `ValueError` (from `int(parts[3])` or from a coordinate
field) the `except` clause fires before `i += point_count`, so only the `A02`
line itself is consumed.  (The source increments the cursor by the raw
`point_count` value; a negative count never occurs in a survey file and is
clamped to zero here.) -/
def stepA02 (lines : List String) (i : Nat) (line : String) (st : SimParseState) :
    SimParseState × Nat :=
  let parts := pySplitComma line
  if 4 ≤ parts.length then
    let landparcel_name := pyStrip (parts.getD 2 "")
    match pyInt? (pyStrip (parts.getD 3 "")) with
    | none => (st, i + 1)
    | some pc =>
      match a02Coords lines (i + 1) pc.toNat with
      | none => (st, i + 1)
      | some coords =>
        if coords = [] then (st, i + pc.toNat + 1)
        else ({ st with landparcel_data := st.landparcel_data ++ [⟨landparcel_name, coords⟩] },
              i + pc.toNat + 1)
  else (st, i + 1)

/-- The coordinate dictionary built by `parse_d00_landparcel` (lines 654-658):
keys are each point's `点番` and, when non-empty, its `点名`; a later point
overwrites an earlier one under the same key, so lookup finds the last
inserting point. -/
def coordMap? (pts : List SimPoint) (key : String) : Option (ℚ × ℚ) :=
  (pts.reverse.find? fun p =>
    p.pointNum == key || (decide (p.pointName ≠ "") && p.pointName == key)).map
    (fun p => (p.x, p.y))

/-- The `B01`-collection loop of `parse_d00_landparcel` (lines 665-728):
scan forward from `start_index + 1`, skipping blank lines, stopping at `D99`
or the next `D00`; a `B01` line with at least two fields resolves first by
point number, then by non-empty point name; unresolved references and `C03`
(and any other) lines are skipped.  Returns the collected coordinates and the
cursor value at exit. -/
def d00Loop (simPts : List SimPoint) (lines : List String) (i : Nat)
    (acc : List (ℚ × ℚ)) : List (ℚ × ℚ) × Nat :=
  match h : lines[i]? with
  | none => (acc, i)
  | some raw =>
    let l := pyStrip raw
    if l = "" then d00Loop simPts lines (i + 1) acc
    else if pyStartsWith l "D99" then (acc, i)
    else if pyStartsWith l "D00" then (acc, i)
    else if pyStartsWith l "B01" then
      let ps := pySplitComma l
      if 2 ≤ ps.length then
        let point_num := pyStrip (ps.getD 1 "")
        let point_name := if 2 < ps.length then pyStrip (ps.getD 2 "") else ""
        let coord :=
          match coordMap? simPts point_num with
          | some c => some c
          | none => if point_name ≠ "" then coordMap? simPts point_name else none
        match coord with
        | some c => d00Loop simPts lines (i + 1) (acc ++ [c])
        | none => d00Loop simPts lines (i + 1) acc
      else d00Loop simPts lines (i + 1) acc
    else d00Loop simPts lines (i + 1) acc
termination_by lines.length - i
decreasing_by
  all_goals
    have : i < lines.length := by
      by_contra hge
      exact absurd h (by simp [List.getElem?_eq_none (Nat.le_of_not_lt hge)])
    omega

/-- `parse_d00_landparcel(lines, start_index)` (lines 623-757): returns the
parcel (when at least three coordinates resolve) and the number of lines
processed. -/
def parse_d00_landparcel (simPts : List SimPoint) (lines : List String) (start : Nat) :
    Option Parcel × Nat :=
  let line := pyStrip (lines.getD start "")
  let parts := pySplitComma line
  if parts.length < 4 then (none, 0)
  else
    let landparcel_name := pyStrip (parts.getD 2 "")
    let res := d00Loop simPts lines (start + 1) []
    let lines_processed := res.2 - start
    if 3 ≤ res.1.length then (some ⟨landparcel_name, res.1⟩, lines_processed)
    else (none, lines_processed)

/-- The main `while i < len(lines)` loop of `load_sim_points`, fuel-indexed:
`none` means the given fuel was exhausted without the loop terminating.
The `A01Result.hang` case re-enters the loop at the same cursor. -/
def simLoop (lines : List String) : Nat → Nat → SimParseState → Option SimParseState
  | 0, _, _ => none
  | fuel + 1, i, st =>
    match lines[i]? with
    | none => some st
    | some raw =>
      let line := pyStrip raw
      if pyStartsWith line "A01" then
        match stepA01 line st with
        | A01Result.hang => simLoop lines fuel i st
        | A01Result.next st' => simLoop lines fuel (i + 1) st'
      else if pyStartsWith line "A02" then
        let res := stepA02 lines i line st
        simLoop lines fuel res.2 res.1
      else if pyStartsWith line "D00" then
        match parse_d00_landparcel st.sim_points lines i with
        | (some lp, processed) =>
          simLoop lines fuel (i + processed)
            { st with landparcel_data := st.landparcel_data ++ [lp] }
        | (none, _) => simLoop lines fuel (i + 1) st
      else simLoop lines fuel (i + 1) st

/-- `load_sim_points` on a decoded line list, starting from the reset state. -/
def load_sim_points_new (fuel : Nat) (lines : List String) : Option SimParseState :=
  simLoop lines fuel 0 ⟨[], []⟩

/-! ## CoordinateSystemResolver: `detect_coordinate_system_type`
(`開発用GPSSCAN_new.py` 539-565) -/

/-- `detect_coordinate_system_type`: `True` = 任意座標系 (LOCAL / arbitrary
grid), `False` = 平面直角座標系 (national plane) branch.  An empty point set
returns `False`. -/
def detect_coordinate_system_type : List SimPoint → Bool
  | [] => false
  | p :: rest =>
    let x_min := (rest.map SimPoint.x).foldl min p.x
    let x_max := (rest.map SimPoint.x).foldl max p.x
    let y_min := (rest.map SimPoint.y).foldl min p.y
    let y_max := (rest.map SimPoint.y).foldl max p.y
    if |x_max| < 5000 ∧ |x_min| < 5000 ∧ |y_max| < 5000 ∧ |y_min| < 5000 then true
    else if |x_min| < 300000 ∧ |x_max| < 300000 ∧ |y_min| < 300000 ∧ |y_max| < 300000 then
      false
    else true

/-- The three-valued classification result named by the specification. -/
inductive FrameClass
  | LOCAL
  | NATIONAL_PLANE
  | NEEDS_MANUAL
deriving DecidableEq

/-- The reference classifier, written from the claim: all four absolute
extrema `< 5000` gives LOCAL; else all four `< 300000` gives NATIONAL_PLANE;
else LOCAL; an empty point set gives NEEDS_MANUAL. -/
def refClassify : List SimPoint → FrameClass
  | [] => FrameClass.NEEDS_MANUAL
  | p :: rest =>
    let x_min := (rest.map SimPoint.x).foldl min p.x
    let x_max := (rest.map SimPoint.x).foldl max p.x
    let y_min := (rest.map SimPoint.y).foldl min p.y
    let y_max := (rest.map SimPoint.y).foldl max p.y
    if |x_max| < 5000 ∧ |x_min| < 5000 ∧ |y_max| < 5000 ∧ |y_min| < 5000 then
      FrameClass.LOCAL
    else if |x_min| < 300000 ∧ |x_max| < 300000 ∧ |y_min| < 300000 ∧ |y_max| < 300000 then
      FrameClass.NATIONAL_PLANE
    else FrameClass.LOCAL

/-! ## ProximityMatcher

`calculate_xy_distance` (`開発用GPSSCAN.py` 1692-1703) computes the Euclidean
distance `math.sqrt((x2-x1)**2 + (y2-y1)**2)`; the nearest-point loops in
`match_photos_to_points_xy` (old file, 1746-1800) and `auto_match_by_gps`
(new file, 2317-2327) keep the strict minimum over a linear scan and compare
it against the operator threshold.  The embedding carries the squared
distance and compares against the squared threshold: `sqrt` is strictly
monotone on non-negative rationals, so every `<` / `<=` branch in the source
is decided identically. -/

def dist2 (x1 y1 x2 y2 : ℚ) : ℚ := (x2 - x1) ^ 2 + (y2 - y1) ^ 2

/-- The shared scan pattern: `min_distance = inf; best = None; for p in pts:
if d(p) < min_distance: min_distance, best = d(p), p`. -/
def closestBy {α : Type} (d : α → ℚ) : List α → Option (α × ℚ) → Option (α × ℚ)
  | [], acc => acc
  | p :: rest, acc =>
    match acc with
    | none => closestBy d rest (some (p, d p))
    | some (q, m) => if d p < m then closestBy d rest (some (p, d p)) else closestBy d rest (some (q, m))

/-- A row of the old file's `points_df` (keys `点番`, `点名`, `X座標`, `Y座標`). -/
structure DfPoint where
  pointNum : String
  pointName : String
  x : ℚ
  y : ℚ
deriving DecidableEq

/-- The nearest-point scan of `match_photos_to_points_xy`. -/
def find_closest (px py : ℚ) (pts : List DfPoint) : Option (DfPoint × ℚ) :=
  closestBy (fun p => dist2 px py p.x p.y) pts none

/-- The per-photo outcome written into the tree by `match_photos_to_points_xy`:
a match (new name assigned), the 範囲外 row (no match, carrying the best
distance found, `none` rendered `不明`), or the 座標なし row (photo without
projected coordinates). -/
inductive MatchOutcome
  | matched (p : DfPoint) (d2 : ℚ)
  | noMatch (best : Option ℚ)
  | noCoords
deriving DecidableEq

/-- One photo's matching decision in `match_photos_to_points_xy` (old file,
lines 1752-1800): `max_d2` is the squared matching threshold. -/
def match_photo_xy (max_d2 : ℚ) (pts : List DfPoint) (pos : Option (ℚ × ℚ)) :
    MatchOutcome :=
  match pos with
  | none => MatchOutcome.noCoords
  | some pq =>
    match find_closest pq.1 pq.2 pts with
    | some qm => if qm.2 ≤ max_d2 then MatchOutcome.matched qm.1 qm.2
                 else MatchOutcome.noMatch (some qm.2)
    | none => MatchOutcome.noMatch none

/-! ## `auto_match_by_gps` (`開発用GPSSCAN_new.py` 2298-2347)

The pass iterates the photo tree rows in order.  A row whose matching cell is
already non-empty is counted as skipped; a photo without `x_coord`/`y_coord`
GPS data is counted as GPS-less; otherwise the nearest survey point is found
and, when within the threshold, the photo is assigned to it with default
landscape `近景` via `create_filename` plus the caller's row/coordinate
update (`assign_photo`). -/

def auto_match_step (cfg : NamingConfig) (simPts : List SimPoint) (max_d2 : ℚ)
    (st : NamingState) (idx : Nat) : NamingState :=
  match st.rows[idx]? with
  | none => st
  | some row =>
    if row.matching ≠ "" then st
    else
      match gpsLookup row.original st.gps with
      | none => st
      | some g =>
        match g.x_coord, g.y_coord with
        | some px, some py =>
          (match closestBy (fun p => dist2 px py p.x p.y) simPts none with
           | some mm =>
             if mm.2 ≤ max_d2 then
               let identifier := if cfg.use_point_name then mm.1.pointName else mm.1.pointNum
               (assign_photo cfg identifier row.original "近景" mm.1 mm.2 st).1
             else st
           | none => st)
        | _, _ => st

def auto_match_by_gps (cfg : NamingConfig) (simPts : List SimPoint) (max_d2 : ℚ)
    (st : NamingState) : NamingState :=
  (List.range st.rows.length).foldl (auto_match_step cfg simPts max_d2) st

/-! ## The legacy encoding-probing parser (`開発用GPSSCAN.py` 1298-1389)

`load_sim_points` in the old file probes a fixed candidate encoding list.
For each candidate it decodes the file and extracts the point records by
regular expression; a `UnicodeDecodeError`/`IOError` (`none` below) moves to
the next candidate, a successful decode yielding a non-empty point list is
accepted and returned, a successful decode with zero points falls through to
the next candidate, and exhausting the list surfaces the decode-failure
dialog (`none` result).  The per-candidate decode-and-extract step is the
function argument `file`. -/

def encodings : List String := ["shift-jis", "utf-8", "cp932", "euc-jp"]

def probeEncodings (file : String → Option (List DfPoint)) :
    List String → Option (List DfPoint)
  | [] => none
  | enc :: rest =>
    match file enc with
    | none => probeEncodings file rest
    | some points => if points = [] then probeEncodings file rest else some points

def load_sim_points_old (file : String → Option (List DfPoint)) : Option (List DfPoint) :=
  probeEncodings file encodings

/-! ## `load_photos` original-coordinate recording
(`開発用GPSSCAN_new.py` 795-806) -/

/-- Lines 801-804: when the extracted EXIF data holds both projected
coordinates, they are saved once as the original coordinates. -/
def record_original_coords (e : GpsData) : GpsData :=
  match e.x_coord, e.y_coord with
  | some x, some y => { e with original_x_coord := some x, original_y_coord := some y }
  | _, _ => e

/-! ## Concrete scenarios

A two-photo state realising the spec's collision scenario: photo `a.jpg` is
the incumbent of point `BM1`, category close (近景), holding the base name
`BM1-2.jpg`; photo `b.jpg` is unmatched.  Configuration: point numbers as
identifiers, landscape suffix in use, special-point override on (the source
defaults). -/

def cfgDefault : NamingConfig := ⟨false, true, true⟩

def ptBM1 : SimPoint := ⟨"BM1", "", 100, 200, 0⟩

def rowP1 : PhotoRow := ⟨"a.jpg", "BM1-2.jpg", "近景", "BM1", some 4⟩

def rowP2 : PhotoRow := ⟨"b.jpg", "", "不明", "", none⟩

def stCollision : NamingState :=
  { rows := [rowP1, rowP2],
    gps := [("a.jpg", ⟨some 100, some 200, some 7, some 8⟩),
            ("b.jpg", ⟨some 101, some 201, some 101, some 201⟩)] }

/-- The state reached by `Assign(b.jpg, BM1, close)` on `stCollision`. -/
def stAfterCollision : NamingState :=
  (assign_photo cfgDefault "BM1" "b.jpg" "近景" ptBM1 2 stCollision).1

/-- A fresh two-photo state whose photos carry different file extensions. -/
def stTwoExt : NamingState :=
  { rows := [⟨"a.jpg", "", "不明", "", none⟩, ⟨"b.png", "", "不明", "", none⟩],
    gps := [("a.jpg", ⟨some 100, some 200, some 100, some 200⟩),
            ("b.png", ⟨some 101, some 201, some 101, some 201⟩)] }

/-- The state after assigning both photos of `stTwoExt` to `(BM1, close)`. -/
def stAfterExt : NamingState :=
  (assign_photo cfgDefault "BM1" "b.png" "近景" ptBM1 2
    (assign_photo cfgDefault "BM1" "a.jpg" "近景" ptBM1 1 stTwoExt).1).1

/-- A record "holds the base-suffix name `{identifier}-1{ext}` or
`{identifier}-2{ext}`" (its own extension). -/
def isBaseSuffixName (identifier : String) (r : PhotoRow) : Bool :=
  r.newName == identifier ++ "-1" ++ (splitext r.original).2 ||
  r.newName == identifier ++ "-2" ++ (splitext r.original).2

/-- Claim C2 as stated: for every `(identifier, category)` pair at most one
record matched to that pair holds a base-suffix name, and every other record
sharing the identifier holds a distinct numeric-suffix name with suffix
≥ 3. -/
def c2ClaimProp (st : NamingState) : Prop :=
  ∀ identifier category : String,
    ((st.rows.filter (fun r => r.matching == identifier && r.landscape == category &&
        isBaseSuffixName identifier r)).length ≤ 1)
    ∧ (∀ r ∈ st.rows, r.matching = identifier → isBaseSuffixName identifier r = false →
        ∃ n : ℕ, 3 ≤ n ∧
          r.newName = identifier ++ "_" ++ toString n ++ (splitext r.original).2)

/-- The amended collision invariant: for every identifier, category and
extension, at most one record simultaneously carries that matched identifier
and category and holds the base name `{identifier}{suffix}{ext}`. -/
def atMostOneBaseHolder (st : NamingState) : Prop :=
  ∀ qid qcat qext : String,
    (st.rows.countP (fun r => r.matching == qid && r.landscape == qcat &&
      r.newName == qid ++ landscapeSuffix qcat ++ qext)) ≤ 1

/-! ## C1 -/

/-- C1 (code bug): in the collision scenario, `create_filename` is documented
("新規写真が -1, -2、既存写真を通し番号に変更") to move the displaced incumbent
to a serial-numbered name, and it computes a used-number set seeded `{1, 2}`
for that purpose, but the set is never read: the incumbent's new file name is
blanked (and its matching point and distance cleared) instead of being set to
`BM1_3.jpg`.  The new photo does become incumbent of the base name. -/
theorem c1_demotion_blanks_incumbent :
    (assign_photo cfgDefault "BM1" "b.jpg" "近景" ptBM1 2 stCollision).2 = "BM1-2.jpg"
    ∧ stAfterCollision.rows =
        [⟨"a.jpg", "", "近景", "", none⟩, ⟨"b.jpg", "BM1-2.jpg", "近景", "BM1", some 2⟩]
    ∧ (stAfterCollision.rows.getD 0 rowP1).newName ≠ "BM1_3.jpg" := by
  refine ⟨by decide, by decide, by decide⟩

/-! ## Association-list lemmas for `photo_gps_data` -/

theorem gpsLookup_update_self (k : String) (f : GpsData → GpsData)
    (l : List (String × GpsData)) :
    gpsLookup k (gpsUpdate k f l) = (gpsLookup k l).map f := by
  induction l with
  | nil => rfl
  | cons p rest ih =>
    obtain ⟨a, v⟩ := p
    by_cases h : a = k
    · simp only [gpsUpdate, List.map_cons] at ih ⊢
      rw [if_pos h]
      simp [gpsLookup, h]
    · simp only [gpsUpdate, List.map_cons] at ih ⊢
      rw [if_neg h]
      simp only [gpsLookup, h, if_false, if_neg h]
      exact ih

theorem gpsLookup_update_other (k k' : String) (hk : k ≠ k') (f : GpsData → GpsData)
    (l : List (String × GpsData)) :
    gpsLookup k' (gpsUpdate k f l) = gpsLookup k' l := by
  induction l with
  | nil => rfl
  | cons p rest ih =>
    obtain ⟨a, v⟩ := p
    simp only [gpsUpdate, List.map_cons] at ih ⊢
    by_cases h : a = k
    · have h' : a ≠ k' := fun hc => hk (h ▸ hc)
      rw [if_pos h]
      simp only [gpsLookup, h', if_false, if_neg h']
      exact ih
    · rw [if_neg h]
      by_cases h' : a = k'
      · simp [gpsLookup, h']
      · simp only [gpsLookup, h', if_false, if_neg h']
        exact ih

theorem restoreOriginal_idem (g : GpsData) :
    restoreOriginal (restoreOriginal g) = restoreOriginal g := by
  cases g with
  | mk x y ox oy =>
    cases ox <;> cases oy <;> simp [restoreOriginal]

/-- The demotion fold over the rows restores the entry under key `k` exactly
when some row satisfying the condition carries that original file name. -/
theorem gpsLookup_demotion_foldl (cond : PhotoRow → Bool) (k : String)
    (rows : List PhotoRow) (acc : List (String × GpsData)) :
    gpsLookup k
      (rows.foldl
        (fun acc r => if cond r then gpsUpdate r.original restoreOriginal acc else acc) acc) =
      if rows.any (fun r => cond r && r.original == k) then
        (gpsLookup k acc).map restoreOriginal
      else gpsLookup k acc := by
  induction rows generalizing acc with
  | nil => simp
  | cons r rest ih =>
    simp only [List.foldl_cons, List.any_cons]
    by_cases hc : cond r = true
    · by_cases hk : r.original = k
      · have h1 : gpsLookup k (gpsUpdate r.original restoreOriginal acc) =
            (gpsLookup k acc).map restoreOriginal := hk ▸ gpsLookup_update_self _ _ _
        rw [if_pos hc, ih, h1]
        have hcomp : restoreOriginal ∘ restoreOriginal = restoreOriginal :=
          funext restoreOriginal_idem
        simp [hc, hk, Option.map_map, hcomp]
      · have h1 : gpsLookup k (gpsUpdate r.original restoreOriginal acc) =
            gpsLookup k acc := gpsLookup_update_other _ _ hk _ _
        rw [if_pos hc, ih, h1]
        simp [hk]
    · have hc' : cond r = false := by simpa using hc
      rw [if_neg (by simp [hc']), ih]
      simp [hc']

theorem demoteCond_original_ne (identifier landscape_type base original_filename : String)
    (checkLand : Bool) (r : PhotoRow)
    (h : demoteCond identifier landscape_type base original_filename checkLand r = true) :
    r.original ≠ original_filename := by
  unfold demoteCond at h
  simp only [Bool.and_eq_true, bne_iff_ne, ne_eq, beq_iff_eq] at h
  exact h.1.2

theorem assignDemoteCond_original_ne (cfg : NamingConfig)
    (identifier0 original_filename landscape_type0 : String) (pd : Option SimPoint)
    (r : PhotoRow)
    (h : assignDemoteCond cfg identifier0 original_filename landscape_type0 pd r = true) :
    r.original ≠ original_filename := by
  unfold assignDemoteCond at h
  rcases Bool.eq_false_or_eq_true cfg.use_landscape_suffix with hu | hu <;>
    simp only [hu, Bool.false_eq_true, if_true, if_false, ite_true, ite_false] at h <;>
    exact demoteCond_original_ne _ _ _ _ _ _ h

/-! ## C3 -/

/-- C3 (confirmed): any photo demoted by a collision inside
`Assign` (`create_filename`), whose original projected coordinates were both
recorded at photo load, ends the call with its stored projected position
equal to that recorded original position. -/
theorem c3_demotion_restores_original (cfg : NamingConfig)
    (identifier photo_name lt : String) (pt : SimPoint) (d2 : ℚ) (st : NamingState)
    (r : PhotoRow) (g : GpsData) (ox oy : ℚ)
    (hr : r ∈ st.rows)
    (hcond : assignDemoteCond cfg identifier photo_name lt (some pt) r = true)
    (hg : gpsLookup r.original st.gps = some g)
    (hox : g.original_x_coord = some ox) (hoy : g.original_y_coord = some oy) :
    gpsLookup r.original (assign_photo cfg identifier photo_name lt pt d2 st).1.gps =
      some { g with x_coord := some ox, y_coord := some oy } := by
  have hne : r.original ≠ photo_name :=
    assignDemoteCond_original_ne cfg identifier photo_name lt (some pt) r hcond
  have hfold :
      gpsLookup r.original
          (applyDemotions (assignDemoteCond cfg identifier photo_name lt (some pt)) st).gps =
        (gpsLookup r.original st.gps).map restoreOriginal := by
    unfold applyDemotions
    rw [gpsLookup_demotion_foldl]
    have : st.rows.any
        (fun q => assignDemoteCond cfg identifier photo_name lt (some pt) q &&
          q.original == r.original) = true := by
      refine List.any_eq_true.mpr ⟨r, hr, ?_⟩
      simp [hcond]
    rw [this]
    simp
  have hrg : restoreOriginal g = { g with x_coord := some ox, y_coord := some oy } := by
    unfold restoreOriginal
    rw [hox, hoy]
  show gpsLookup r.original
      (gpsUpdate photo_name (snapTo pt)
        (applyDemotions (assignDemoteCond cfg identifier photo_name lt (some pt)) st).gps) =
      some { g with x_coord := some ox, y_coord := some oy }
  rw [gpsLookup_update_other _ _ (fun h => hne h.symm) _ _, hfold, hg]
  simp [hrg]

/-- Witness for C3: the collision scenario, photo `a.jpg` demoted with
recorded originals `(7, 8)`. -/
theorem c3_witness :
    gpsLookup "a.jpg" (assign_photo cfgDefault "BM1" "b.jpg" "近景" ptBM1 2 stCollision).1.gps =
      some { x_coord := some 7, y_coord := some 8,
             original_x_coord := some 7, original_y_coord := some 8 } := by
  have h := c3_demotion_restores_original cfgDefault "BM1" "b.jpg" "近景" ptBM1 2 stCollision
    rowP1 ⟨some 100, some 200, some 7, some 8⟩ 7 8
    (by decide) (by decide) (by decide) (by decide) (by decide)
  exact h

/-! ## List and update helper lemmas -/

theorem map_eq_self_of_mem {α : Type} (l : List α) (g : α → α) (h : ∀ x ∈ l, g x = x) :
    l.map g = l := by
  induction l with
  | nil => rfl
  | cons a t ih =>
    rw [List.map_cons, h a (List.mem_cons_self a t),
      ih (fun x hx => h x (List.mem_cons_of_mem a hx))]

theorem mem_updateFirst (p : PhotoRow → Bool) (f : PhotoRow → PhotoRow)
    (l : List PhotoRow) (x : PhotoRow) (hx : x ∈ updateFirst p f l) :
    x ∈ l ∨ ∃ r, r ∈ l ∧ p r = true ∧ x = f r := by
  induction l with
  | nil => cases hx
  | cons a t ih =>
    by_cases hp : p a = true
    · simp only [updateFirst, if_pos hp] at hx
      rcases List.mem_cons.mp hx with h | h
      · exact Or.inr ⟨a, List.mem_cons_self a t, hp, h⟩
      · exact Or.inl (List.mem_cons_of_mem a h)
    · simp only [updateFirst, if_neg hp] at hx
      rcases List.mem_cons.mp hx with h | h
      · exact Or.inl (h ▸ List.mem_cons_self a t)
      · rcases ih h with h' | ⟨r, hr, hpr, hxr⟩
        · exact Or.inl (List.mem_cons_of_mem a h')
        · exact Or.inr ⟨r, List.mem_cons_of_mem a hr, hpr, hxr⟩

theorem updateFirst_updateFirst (p : PhotoRow → Bool) (f : PhotoRow → PhotoRow)
    (hp : ∀ r, p (f r) = p r) (hf : ∀ r, f (f r) = f r) (l : List PhotoRow) :
    updateFirst p f (updateFirst p f l) = updateFirst p f l := by
  induction l with
  | nil => rfl
  | cons a t ih =>
    by_cases hpa : p a = true
    · simp only [updateFirst, if_pos hpa]
      simp only [updateFirst, hp a, if_pos hpa, hf a]
    · simp only [updateFirst, if_neg hpa]
      simp only [updateFirst, if_neg hpa, ih]

/-- The demotion fold over the rows, written as a single map over the
dictionary entries: an entry is restored exactly when some condition-satisfying
row carries its key. -/
theorem demotion_foldl_eq_map (cond : PhotoRow → Bool) (rows : List PhotoRow)
    (G : List (String × GpsData)) :
    rows.foldl
        (fun acc r => if cond r then gpsUpdate r.original restoreOriginal acc else acc) G =
      G.map (fun e =>
        if rows.any (fun r => cond r && r.original == e.1) then (e.1, restoreOriginal e.2)
        else e) := by
  induction rows generalizing G with
  | nil => simp
  | cons r rest ih =>
    simp only [List.foldl_cons]
    by_cases hc : cond r = true
    · rw [if_pos hc, ih]
      unfold gpsUpdate
      rw [List.map_map]
      refine List.map_congr_left (fun e _ => ?_)
      simp only [Function.comp_apply, List.any_cons, hc, Bool.true_and]
      by_cases hk : e.1 = r.original
      · have hk' : (r.original == e.1) = true := by simp [hk]
        rw [if_pos hk]
        by_cases ha : rest.any (fun q => cond q && q.original == e.1) = true
        · simp [ha, hk', restoreOriginal_idem]
        · simp only [Bool.not_eq_true] at ha
          simp [ha, hk', restoreOriginal_idem]
      · have hk' : (r.original == e.1) = false := by
          rw [beq_eq_false_iff_ne]
          exact fun h => hk h.symm
        rw [if_neg hk]
        simp [hk']
    · have hc' : cond r = false := by simpa using hc
      rw [if_neg (by simp [hc']), ih]
      refine List.map_congr_left (fun e _ => ?_)
      simp [hc']

/-- Key-update functions at distinct keys and idempotent value functions:
`gpsUpdate` written pointwise. -/
theorem gpsUpdate_eq_map (k : String) (f : GpsData → GpsData) (l : List (String × GpsData)) :
    gpsUpdate k f l = l.map (fun p => if p.1 = k then (p.1, f p.2) else p) := rfl

/-! ## C8 -/

theorem demoteCond_newName_eq (identifier landscape_type base original_filename : String)
    (checkLand : Bool) (r : PhotoRow)
    (h : demoteCond identifier landscape_type base original_filename checkLand r = true) :
    r.newName = base := by
  unfold demoteCond at h
  simp only [Bool.and_eq_true, bne_iff_ne, ne_eq, beq_iff_eq] at h
  exact h.2

theorem assignDemoteCond_newName_eq (cfg : NamingConfig)
    (identifier0 original_filename landscape_type0 : String) (pd : Option SimPoint)
    (r : PhotoRow)
    (h : assignDemoteCond cfg identifier0 original_filename landscape_type0 pd r = true) :
    r.newName = create_base_name cfg identifier0 original_filename landscape_type0 pd := by
  unfold assignDemoteCond at h
  rcases Bool.eq_false_or_eq_true cfg.use_landscape_suffix with hu | hu <;>
    simp only [hu, Bool.false_eq_true, if_true, if_false, ite_true, ite_false] at h <;>
    exact demoteCond_newName_eq _ _ _ _ _ _ h

/-- The gps component of `assignCore`, written entrywise: each entry keeps its
key; its value is restored when a condition row carries the key, and then
snapped when the key is the caller's. -/
theorem assignCore_gps_eq (cond p : PhotoRow → Bool) (f : PhotoRow → PhotoRow)
    (o : String) (snapF : GpsData → GpsData) (st : NamingState) :
    (assignCore cond p f o snapF st).gps =
      st.gps.map (fun e =>
        (e.1,
          if e.1 = o then
            snapF (if st.rows.any (fun r => cond r && r.original == e.1) then
                     restoreOriginal e.2
                   else e.2)
          else
            (if st.rows.any (fun r => cond r && r.original == e.1) then restoreOriginal e.2
             else e.2))) := by
  show gpsUpdate o snapF
      (st.rows.foldl
        (fun acc r => if cond r then gpsUpdate r.original restoreOriginal acc else acc)
        st.gps) = _
  rw [demotion_foldl_eq_map, gpsUpdate_eq_map, List.map_map]
  refine List.map_congr_left (fun e _ => ?_)
  simp only [Function.comp_apply]
  by_cases hb : (st.rows.any (fun r => cond r && r.original == e.1)) = true
  · rw [if_pos hb]
    dsimp only
    by_cases hk : e.1 = o
    · rw [if_pos hk, if_pos hk, if_pos hb]
    · rw [if_neg hk, if_neg hk, if_pos hb]
  · rw [if_neg hb]
    by_cases hk : e.1 = o
    · rw [if_pos hk, if_pos hk, if_neg hb]
    · rw [if_neg hk, if_neg hk, if_neg hb]

/-- Idempotence of the state transformation shared by the `create_filename`
call sites, under the facts that hold there: the caller update preserves the
caller predicate and is idempotent, the snap is idempotent, an updated caller
row never satisfies the demotion condition, and demotion-condition rows never
carry the caller's file name. -/
theorem assignCore_idem (cond p : PhotoRow → Bool) (f : PhotoRow → PhotoRow)
    (o : String) (snapF : GpsData → GpsData)
    (hpf : ∀ r, p (f r) = p r) (hff : ∀ r, f (f r) = f r)
    (hsnap : ∀ g, snapF (snapF g) = snapF g)
    (hcondf : ∀ r, p r = true → cond (f r) = false)
    (hcondo : ∀ r, cond r = true → r.original ≠ o)
    (st : NamingState) :
    assignCore cond p f o snapF (assignCore cond p f o snapF st) =
      assignCore cond p f o snapF st := by
  classical
  have hrows1 : (assignCore cond p f o snapF st).rows =
      updateFirst p f (st.rows.map (fun r => if cond r then demoteRow r else r)) := rfl
  have hgps1 : (assignCore cond p f o snapF st).gps =
      gpsUpdate o snapF
        (st.rows.foldl
          (fun acc r => if cond r then gpsUpdate r.original restoreOriginal acc else acc)
          st.gps) := rfl
  -- every element of the post-state rows is demotion-stable
  have hstable : ∀ x ∈ (assignCore cond p f o snapF st).rows,
      (if cond x then demoteRow x else x) = x := by
    intro x hx
    rw [hrows1] at hx
    rcases mem_updateFirst _ _ _ _ hx with hmem | ⟨r, _, hpr, hxr⟩
    · rcases List.mem_map.mp hmem with ⟨r, _, hr⟩
      by_cases hcr : cond r = true
      · rw [if_pos hcr] at hr
        subst hr
        by_cases hcd : cond (demoteRow r) = true
        · rw [if_pos hcd]
          rfl
        · rw [if_neg hcd]
      · rw [if_neg hcr] at hr
        subst hr
        rw [if_neg hcr]
    · subst hxr
      rw [if_neg (by simp [hcondf r hpr])]
  -- demotions at a key touched in the second pass were already made
  have hcond_key : ∀ k : String,
      ((assignCore cond p f o snapF st).rows.any
        (fun r => cond r && r.original == k)) = true →
      (st.rows.any (fun r => cond r && r.original == k)) = true := by
    intro k hk
    rcases List.any_eq_true.mp hk with ⟨x, hx, hxc⟩
    rw [Bool.and_eq_true] at hxc
    obtain ⟨hxc1, hxk⟩ := hxc
    rw [hrows1] at hx
    rcases mem_updateFirst _ _ _ _ hx with hmem | ⟨r, _, hpr, hxr⟩
    · rcases List.mem_map.mp hmem with ⟨r, hrmem, hr⟩
      by_cases hcr : cond r = true
      · rw [if_pos hcr] at hr
        refine List.any_eq_true.mpr ⟨r, hrmem, ?_⟩
        have horig : r.original = x.original := by rw [← hr]; rfl
        rw [Bool.and_eq_true]
        exact ⟨hcr, horig ▸ hxk⟩
      · rw [if_neg hcr] at hr
        exact absurd (hr ▸ hxc1) (by simp [hcr])
    · exact absurd (hxr ▸ hxc1) (by simp [hcondf r hpr])
  have hany_o : ∀ rows : List PhotoRow,
      (rows.any (fun r => cond r && r.original == o)) = false := by
    intro rows
    by_contra h
    have h' : (rows.any (fun r => cond r && r.original == o)) = true := by
      simpa using h
    rcases List.any_eq_true.mp h' with ⟨x, _, hxc⟩
    rw [Bool.and_eq_true] at hxc
    exact hcondo x hxc.1 (beq_iff_eq.mp hxc.2)
  -- rows collapse
  have hrows_eq : (assignCore cond p f o snapF (assignCore cond p f o snapF st)).rows =
      (assignCore cond p f o snapF st).rows := by
    show updateFirst p f
        (((assignCore cond p f o snapF st).rows).map
          (fun r => if cond r then demoteRow r else r)) =
        (assignCore cond p f o snapF st).rows
    rw [map_eq_self_of_mem _ _ hstable, hrows1]
    exact updateFirst_updateFirst p f hpf hff _
  -- gps collapses
  have hgps_eq : (assignCore cond p f o snapF (assignCore cond p f o snapF st)).gps =
      (assignCore cond p f o snapF st).gps := by
    rw [assignCore_gps_eq cond p f o snapF (assignCore cond p f o snapF st),
      assignCore_gps_eq cond p f o snapF st, List.map_map]
    refine List.map_congr_left (fun e _ => ?_)
    simp only [Function.comp_apply]
    by_cases hke : e.1 = o
    · simp only [hke, eq_self_iff_true, if_true, hany_o st.rows,
        hany_o (assignCore cond p f o snapF st).rows, Bool.false_eq_true, if_false]
      rw [hsnap]
    · simp only [if_neg hke]
      by_cases hA2 : ((assignCore cond p f o snapF st).rows.any
          (fun r => cond r && r.original == e.1)) = true
      · have hA1 : (st.rows.any (fun r => cond r && r.original == e.1)) = true :=
          hcond_key e.1 hA2
        simp only [hA2, hA1, eq_self_iff_true, if_true]
        rw [restoreOriginal_idem]
      · have hA2' : ((assignCore cond p f o snapF st).rows.any
            (fun r => cond r && r.original == e.1)) = false := by simpa using hA2
        simp only [hA2', Bool.false_eq_true, if_false]
  cases h1 : assignCore cond p f o snapF (assignCore cond p f o snapF st) with
  | mk rows2 gps2 =>
    have ha := hrows_eq
    have hb := hgps_eq
    rw [h1] at ha hb
    rw [show assignCore cond p f o snapF st =
      ⟨(assignCore cond p f o snapF st).rows, (assignCore cond p f o snapF st).gps⟩
      from rfl]
    exact congrArg₂ NamingState.mk ha hb

/-- C8 (confirmed): repeating an `Assign` call with identical arguments
returns the identical file name and leaves the state exactly as the first
call left it; with the landscape suffix in use no row of the intermediate
state satisfies the second call's demotion condition — in particular the
photo holding the slot is excluded by its own original file name and is never
treated as its own collision. -/
theorem c8_assign_idempotent (cfg : NamingConfig) (identifier photo_name lt : String)
    (pt : SimPoint) (d2 : ℚ) (st : NamingState) :
    assign_photo cfg identifier photo_name lt pt d2
        ((assign_photo cfg identifier photo_name lt pt d2 st).1) =
      assign_photo cfg identifier photo_name lt pt d2 st
    ∧ (cfg.use_landscape_suffix = true →
        ∀ r ∈ (assign_photo cfg identifier photo_name lt pt d2 st).1.rows,
          assignDemoteCond cfg identifier photo_name lt (some pt) r = false) := by
  classical
  have hcondf : ∀ r : PhotoRow, (r.original == photo_name) = true →
      assignDemoteCond cfg identifier photo_name lt (some pt)
        (callerUpdate (create_base_name cfg identifier photo_name lt (some pt)) lt
          identifier d2 r) = false := by
    intro r hpr
    by_contra hcf
    have hcf' : assignDemoteCond cfg identifier photo_name lt (some pt)
        (callerUpdate (create_base_name cfg identifier photo_name lt (some pt)) lt
          identifier d2 r) = true := by simpa using hcf
    have hne := assignDemoteCond_original_ne cfg identifier photo_name lt (some pt) _ hcf'
    exact hne (beq_iff_eq.mp hpr)
  refine ⟨?_, ?_⟩
  · have hstate := assignCore_idem
      (assignDemoteCond cfg identifier photo_name lt (some pt))
      (fun r => r.original == photo_name)
      (callerUpdate (create_base_name cfg identifier photo_name lt (some pt)) lt
        identifier d2)
      photo_name (snapTo pt)
      (fun r => rfl) (fun r => rfl) (fun g => rfl)
      hcondf
      (assignDemoteCond_original_ne cfg identifier photo_name lt (some pt))
      st
    exact Prod.ext hstate rfl
  · intro hsuf x hx
    have hbase_ne : create_base_name cfg identifier photo_name lt (some pt) ≠ "" := by
      simp only [create_base_name, hsuf, if_true, ite_true]
      intro hcontra
      have hlen := congrArg String.length hcontra
      rw [String.length_append, String.length_append] at hlen
      have hsuflen : ∀ s : String, (landscapeSuffix s).length = 2 := by
        intro s
        unfold landscapeSuffix
        by_cases h : s = "遠景"
        · rw [if_pos h]; decide
        · rw [if_neg h]; decide
      rw [hsuflen] at hlen
      have hz : ("" : String).length = 0 := rfl
      rw [hz] at hlen
      omega
    by_contra hcx
    have hcx' : assignDemoteCond cfg identifier photo_name lt (some pt) x = true := by
      simpa using hcx
    have hxbase := assignDemoteCond_newName_eq cfg identifier photo_name lt (some pt) x hcx'
    -- x is an element of the post-state rows, hence demotion-stable
    rcases mem_updateFirst _ _ _ _ hx with hmem | ⟨r, _, hpr, hxr⟩
    · rcases List.mem_map.mp hmem with ⟨r, _, hr⟩
      by_cases hcr : assignDemoteCond cfg identifier photo_name lt (some pt) r = true
      · rw [if_pos hcr] at hr
        have hempty : x.newName = "" := by rw [← hr]; rfl
        exact hbase_ne (hempty ▸ hxbase).symm
      · rw [if_neg hcr] at hr
        exact hcr (hr ▸ hcx')
    · subst hxr
      exact absurd hcx' (by simp [hcondf r hpr])


/-- Witness for C8: repeating the collision-scenario `Assign` changes nothing
and triggers no demotion. -/
theorem c8_witness :
    assign_photo cfgDefault "BM1" "b.jpg" "近景" ptBM1 2
        ((assign_photo cfgDefault "BM1" "b.jpg" "近景" ptBM1 2 stCollision).1) =
      assign_photo cfgDefault "BM1" "b.jpg" "近景" ptBM1 2 stCollision
    ∧ ∀ r ∈ (assign_photo cfgDefault "BM1" "b.jpg" "近景" ptBM1 2 stCollision).1.rows,
        assignDemoteCond cfgDefault "BM1" "b.jpg" "近景" (some ptBM1) r = false :=
  ⟨(c8_assign_idempotent cfgDefault "BM1" "b.jpg" "近景" ptBM1 2 stCollision).1,
   (c8_assign_idempotent cfgDefault "BM1" "b.jpg" "近景" ptBM1 2 stCollision).2 rfl⟩

/-! ## C2 -/

theorem baseName_ne_empty (qid qcat qext : String) :
    qid ++ landscapeSuffix qcat ++ qext ≠ "" := by
  intro hcontra
  have hlen := congrArg String.length hcontra
  rw [String.length_append, String.length_append] at hlen
  have hsuflen : ∀ s : String, (landscapeSuffix s).length = 2 := by
    intro s
    unfold landscapeSuffix
    by_cases h : s = "遠景"
    · rw [if_pos h]; decide
    · rw [if_neg h]; decide
  rw [hsuflen] at hlen
  have hz : ("" : String).length = 0 := rfl
  rw [hz] at hlen
  omega

theorem countP_updateFirst_le (q p : PhotoRow → Bool) (f : PhotoRow → PhotoRow)
    (l : List PhotoRow) (hqf : ∀ x, q (f x) = false) :
    (updateFirst p f l).countP q ≤ l.countP q := by
  induction l with
  | nil => exact Nat.le_refl _
  | cons a t ih =>
    by_cases hp : p a = true
    · simp only [updateFirst, if_pos hp, List.countP_cons, hqf a]
      by_cases hqa : q a = true <;> simp [hqa]
    · simp only [updateFirst, if_neg hp, List.countP_cons]
      exact Nat.add_le_add_right ih _

theorem countP_updateFirst_eq (q p : PhotoRow → Bool) (f : PhotoRow → PhotoRow)
    (l : List PhotoRow) (hq : ∀ x, q (f x) = q x) :
    (updateFirst p f l).countP q = l.countP q := by
  induction l with
  | nil => rfl
  | cons a t ih =>
    by_cases hp : p a = true
    · simp only [updateFirst, if_pos hp, List.countP_cons, hq a]
    · simp only [updateFirst, if_neg hp, List.countP_cons, ih]

theorem countP_le_countP (p q : PhotoRow → Bool) (l : List PhotoRow)
    (h : ∀ a ∈ l, p a = true → q a = true) : l.countP p ≤ l.countP q := by
  induction l with
  | nil => exact Nat.le_refl _
  | cons a t ih =>
    rw [List.countP_cons, List.countP_cons]
    have ht := ih (fun x hx => h x (List.mem_cons_of_mem a hx))
    by_cases hpa : p a = true
    · rw [if_pos hpa, if_pos (h a (List.mem_cons_self a t) hpa)]
      exact Nat.add_le_add ht (Nat.le_refl 1)
    · rw [if_neg hpa]
      by_cases hqa : q a = true <;> simp [hqa] <;> omega

theorem countP_map_photo (q : PhotoRow → Bool) (g : PhotoRow → PhotoRow)
    (l : List PhotoRow) : (l.map g).countP q = l.countP (fun x => q (g x)) := by
  induction l with
  | nil => rfl
  | cons a t ih => rw [List.map_cons, List.countP_cons, List.countP_cons, ih]

theorem nodup_originals_countP (l : List PhotoRow)
    (h : (l.map PhotoRow.original).Nodup) (o : String) :
    l.countP (fun r => r.original == o) ≤ 1 := by
  induction l with
  | nil => exact Nat.le_of_lt Nat.zero_lt_one
  | cons a t ih =>
    rw [List.map_cons, List.nodup_cons] at h
    rw [List.countP_cons]
    by_cases ha : a.original = o
    · have hzero : t.countP (fun r => r.original == o) = 0 := by
        rw [List.countP_eq_zero]
        intro r hr hro
        exact h.1 (List.mem_map.mpr ⟨r, hr, by rw [beq_iff_eq.mp hro, ha]⟩)
      rw [hzero]
      simp [ha]
    · have ha' : (a.original == o) = false := by simp [ha]
      rw [ha']
      simpa using ih h.2

/-- Counterexample to C2 as stated: two photos with different file extensions
both assigned to `(BM1, close)` each end up holding a base-suffix name, so
the `(BM1, 近景)` pair has two base-suffix holders (and neither holds a
numeric-suffix name). -/
theorem c2_counterexample : ¬ c2ClaimProp stAfterExt := by
  intro h
  exact absurd (h "BM1" "近景").1 (by decide)

/-- C2 (amended): in landscape-suffix mode, over states with pairwise
distinct original file names, when the call's landscape is 遠景 or 近景 and
the special-point override leaves the identifier unchanged, every `Assign`
call preserves the invariant that for each (identifier, category, extension)
at most one record simultaneously carries that matched identifier and
category and holds the base name; and the invariant holds in any state whose
records carry no assigned name (demoted records end with an empty name, not
a numeric suffix — see C1). -/
theorem c2_amended_invariant (cfg : NamingConfig) (identifier photo_name lt : String)
    (pt : SimPoint) (d2 : ℚ) (st : NamingState) :
    ((∀ r ∈ st.rows, r.newName = "") → atMostOneBaseHolder st)
    ∧ ((st.rows.map PhotoRow.original).Nodup →
       special_identifier cfg identifier (some pt) = identifier →
       cfg.use_landscape_suffix = true →
       (lt = "遠景" ∨ lt = "近景") →
       atMostOneBaseHolder st →
       atMostOneBaseHolder (assign_photo cfg identifier photo_name lt pt d2 st).1) := by
  constructor
  · intro hfresh qid qcat qext
    have hzero : st.rows.countP (fun r => r.matching == qid && r.landscape == qcat &&
        r.newName == qid ++ landscapeSuffix qcat ++ qext) = 0 := by
      rw [List.countP_eq_zero]
      intro r hr hp
      rw [Bool.and_eq_true, Bool.and_eq_true] at hp
      have hname := beq_iff_eq.mp hp.2
      rw [hfresh r hr] at hname
      exact baseName_ne_empty qid qcat qext hname.symm
    rw [hzero]
    exact Nat.le_of_lt Nat.zero_lt_one
  · intro hnodup hid hsuf hlt hinv qid qcat qext
    have hlt_ne : ¬(lt = "不明") := by
      rcases hlt with h | h <;> subst h <;> decide
    have hbase_eq : create_base_name cfg identifier photo_name lt (some pt) =
        identifier ++ landscapeSuffix lt ++ (splitext photo_name).2 := by
      simp [create_base_name, hsuf, hid, hlt_ne]
    have hcond_eq : assignDemoteCond cfg identifier photo_name lt (some pt) =
        demoteCond identifier lt (identifier ++ landscapeSuffix lt ++ (splitext photo_name).2)
          photo_name true := by
      simp [assignDemoteCond, create_base_name, hsuf, hid, hlt_ne]
    have hrows : (assign_photo cfg identifier photo_name lt pt d2 st).1.rows =
        updateFirst (fun r => r.original == photo_name)
          (callerUpdate (create_base_name cfg identifier photo_name lt (some pt)) lt
            identifier d2)
          (st.rows.map (fun r =>
            if assignDemoteCond cfg identifier photo_name lt (some pt) r then demoteRow r
            else r)) := rfl
    rw [hrows]
    by_cases htgt : qid = identifier ∧ qcat = lt ∧
        qid ++ landscapeSuffix qcat ++ qext =
          create_base_name cfg identifier photo_name lt (some pt)
    · -- the pair receiving the new base name: every holder is the caller row
      obtain ⟨hq1, hq2, hq3⟩ := htgt
      have hmem : ∀ y ∈ updateFirst (fun r => r.original == photo_name)
          (callerUpdate (create_base_name cfg identifier photo_name lt (some pt)) lt
            identifier d2)
          (st.rows.map (fun r =>
            if assignDemoteCond cfg identifier photo_name lt (some pt) r then demoteRow r
            else r)),
          (y.matching == qid && y.landscape == qcat &&
            y.newName == qid ++ landscapeSuffix qcat ++ qext) = true →
          (y.original == photo_name) = true := by
        intro y hy hpy
        rw [Bool.and_eq_true, Bool.and_eq_true] at hpy
        obtain ⟨⟨hm, hl⟩, hn⟩ := hpy
        rcases mem_updateFirst _ _ _ _ hy with hmem' | ⟨r, _, hpr, hyr⟩
        · rcases List.mem_map.mp hmem' with ⟨r, hrmem, hr⟩
          by_cases hcr : assignDemoteCond cfg identifier photo_name lt (some pt) r = true
          · rw [if_pos hcr] at hr
            have hempty : y.newName = "" := by rw [← hr]; rfl
            rw [hempty] at hn
            exact absurd (beq_iff_eq.mp hn).symm (baseName_ne_empty qid qcat qext)
          · rw [if_neg hcr] at hr
            subst hr
            -- the demotion condition reduces to the original-name test
            rw [hcond_eq] at hcr
            unfold demoteCond at hcr
            rw [hq1] at hm
            rw [hq2] at hl
            rw [hq3, hbase_eq] at hn
            by_cases hyo : (r.original == photo_name) = true
            · exact hyo
            · exfalso
              apply hcr
              have hbne : (r.original != photo_name) = true := by
                have hyo' : (r.original == photo_name) = false := by
                  simpa using hyo
                rw [bne, hyo']
                rfl
              rw [Bool.and_eq_true, Bool.and_eq_true, Bool.and_eq_true]
              exact ⟨⟨⟨hm, by simp [hl]⟩, hbne⟩, hn⟩
        · subst hyr
          exact hpr
      refine Nat.le_trans
        (countP_le_countP _ _ _ hmem) ?_
      have he := countP_updateFirst_eq (fun r => r.original == photo_name)
        (fun r => r.original == photo_name)
        (callerUpdate (create_base_name cfg identifier photo_name lt (some pt)) lt
          identifier d2)
        (st.rows.map (fun r =>
          if assignDemoteCond cfg identifier photo_name lt (some pt) r then demoteRow r
          else r))
        (fun x => rfl)
      rw [he, countP_map_photo]
      have hdm : ∀ r : PhotoRow,
          ((if assignDemoteCond cfg identifier photo_name lt (some pt) r then demoteRow r
            else r).original == photo_name) = (r.original == photo_name) := by
        intro r
        by_cases hc : assignDemoteCond cfg identifier photo_name lt (some pt) r = true
        · rw [if_pos hc]
          rfl
        · rw [if_neg hc]
      calc st.rows.countP (fun x =>
              ((if assignDemoteCond cfg identifier photo_name lt (some pt) x then demoteRow x
                else x).original == photo_name))
          = st.rows.countP (fun r => r.original == photo_name) := by
            refine congrArg (List.countP · st.rows) ?_
            funext x
            exact hdm x
        _ ≤ 1 := nodup_originals_countP st.rows hnodup photo_name
    · -- any other pair: no new holder is created
      have hqf : ∀ x : PhotoRow,
          ((callerUpdate (create_base_name cfg identifier photo_name lt (some pt)) lt
              identifier d2 x).matching == qid &&
            (callerUpdate (create_base_name cfg identifier photo_name lt (some pt)) lt
              identifier d2 x).landscape == qcat &&
            (callerUpdate (create_base_name cfg identifier photo_name lt (some pt)) lt
              identifier d2 x).newName ==
              qid ++ landscapeSuffix qcat ++ qext) = false := by
        intro x
        by_contra hx
        have hx' := (Bool.not_eq_false _).mp hx
        rw [Bool.and_eq_true, Bool.and_eq_true] at hx'
        obtain ⟨⟨hm, hl⟩, hn⟩ := hx'
        exact htgt ⟨(beq_iff_eq.mp hm).symm, (beq_iff_eq.mp hl).symm,
          (beq_iff_eq.mp hn).symm⟩
      refine Nat.le_trans (countP_updateFirst_le _ _ _ _ hqf) ?_
      rw [countP_map_photo]
      refine Nat.le_trans (countP_le_countP _ _ _ ?_) (hinv qid qcat qext)
      intro r _ hr
      by_cases hc : assignDemoteCond cfg identifier photo_name lt (some pt) r = true
      · rw [if_pos hc] at hr
        rw [Bool.and_eq_true, Bool.and_eq_true] at hr
        have hempty : (demoteRow r).newName = "" := rfl
        rw [hempty] at hr
        exact absurd (beq_iff_eq.mp hr.2).symm (baseName_ne_empty qid qcat qext)
      · rw [if_neg hc] at hr
        exact hr

/-- Witness for C2: starting from a fresh two-photo state, the invariant
holds after an `Assign` call. -/
theorem c2_witness : atMostOneBaseHolder
    (assign_photo cfgDefault "BM1" "a.jpg" "近景" ptBM1 1 stTwoExt).1 :=
  (c2_amended_invariant cfgDefault "BM1" "a.jpg" "近景" ptBM1 1 stTwoExt).2
    (by decide) (by decide) rfl (Or.inr rfl)
    ((c2_amended_invariant cfgDefault "BM1" "a.jpg" "近景" ptBM1 1 stTwoExt).1
      (by decide))

/-! ## C4 -/

theorem simLoop_empty_coord_hangs :
    ∀ fuel (st : SimParseState), simLoop ["A01,1,P,,200"] fuel 0 st = none := by
  intro fuel
  induction fuel with
  | zero => intro _; rfl
  | succ n ih => intro st; exact ih st

/-- C4 (code bug): on an `A01` record whose x-coordinate field is empty, the
`continue` statement inside the `while` loop skips the terminal `i += 1`, so
the same line is reprocessed forever: no amount of fuel finishes the parse.
An `A01` record whose coordinate field is merely unparsable is, by contrast,
skipped with a diagnostic and parsing continues and terminates. -/
theorem c4_empty_coordinate_never_terminates :
    (∀ fuel, load_sim_points_new fuel ["A01,1,P,,200"] = none)
    ∧ load_sim_points_new 50 ["A01,1,P,abc,200", "A01,2,Q,3,4"] =
        some ⟨[⟨"2", "Q", 3, 4, 0⟩], []⟩ :=
  ⟨fun fuel => simLoop_empty_coord_hangs fuel ⟨[], []⟩, by decide⟩

/-! ## C5 -/

/-- Counterexample to C5 as stated: the code's classifier is two-valued — the
empty point set is returned `False`, the same result as a genuine
NATIONAL_PLANE point set, not a distinct NEEDS_MANUAL classification. -/
theorem c5_counterexample :
    refClassify [] = FrameClass.NEEDS_MANUAL
    ∧ refClassify [⟨"1", "", 120000, 50000, 0⟩] = FrameClass.NATIONAL_PLANE
    ∧ detect_coordinate_system_type [] =
        detect_coordinate_system_type [⟨"1", "", 120000, 50000, 0⟩] := by
  refine ⟨by decide, by decide, by decide⟩

/-- C5 (amended): on a non-empty point set the classifier computes exactly
the reference definition (`True` = LOCAL, `False` = NATIONAL_PLANE), with the
`<` boundary: all extrema 4999 gives LOCAL, all extrema 5000 enters the
NATIONAL_PLANE branch; the empty point set returns `False` (the
NATIONAL_PLANE-side default), not a distinct NEEDS_MANUAL result. -/
theorem c5_classifier_matches_reference (pts : List SimPoint) :
    (detect_coordinate_system_type [] = false ∧ refClassify [] = FrameClass.NEEDS_MANUAL)
    ∧ (pts ≠ [] →
        (detect_coordinate_system_type pts = true ↔ refClassify pts = FrameClass.LOCAL)
        ∧ (detect_coordinate_system_type pts = false ↔
            refClassify pts = FrameClass.NATIONAL_PLANE))
    ∧ detect_coordinate_system_type [⟨"1", "", 4999, 4999, 0⟩] = true
    ∧ detect_coordinate_system_type [⟨"1", "", 5000, 5000, 0⟩] = false := by
  refine ⟨⟨rfl, rfl⟩, ?_, by decide, by decide⟩
  cases pts with
  | nil => intro h; exact absurd rfl h
  | cons p rest =>
    intro _
    by_cases h1 : |(rest.map SimPoint.x).foldl max p.x| < 5000 ∧
        |(rest.map SimPoint.x).foldl min p.x| < 5000 ∧
        |(rest.map SimPoint.y).foldl max p.y| < 5000 ∧
        |(rest.map SimPoint.y).foldl min p.y| < 5000
    · simp [detect_coordinate_system_type, refClassify, h1]
    · by_cases h2 : |(rest.map SimPoint.x).foldl min p.x| < 300000 ∧
          |(rest.map SimPoint.x).foldl max p.x| < 300000 ∧
          |(rest.map SimPoint.y).foldl min p.y| < 300000 ∧
          |(rest.map SimPoint.y).foldl max p.y| < 300000
      · simp [detect_coordinate_system_type, refClassify, h1, h2]
      · simp [detect_coordinate_system_type, refClassify, h1, h2]

/-- Witness for C5: the amended theorem applied at a one-point NATIONAL_PLANE
set. -/
theorem c5_witness :
    (detect_coordinate_system_type [⟨"1", "", 120000, 50000, 0⟩] = true ↔
      refClassify [⟨"1", "", 120000, 50000, 0⟩] = FrameClass.LOCAL)
    ∧ (detect_coordinate_system_type [⟨"1", "", 120000, 50000, 0⟩] = false ↔
        refClassify [⟨"1", "", 120000, 50000, 0⟩] = FrameClass.NATIONAL_PLANE) :=
  (c5_classifier_matches_reference [⟨"1", "", 120000, 50000, 0⟩]).2.1 (by decide)

/-! ## C6 -/

/-- Characterization of the scan with a non-empty accumulator: the result is
either the accumulator itself (no strictly closer point follows) or the first
point of the list attaining the strict minimum below the accumulator. -/
theorem closestBy_some_spec {α : Type} (d : α → ℚ) (l : List α) (q : α) (m : ℚ) :
    ∃ res : α × ℚ, closestBy d l (some (q, m)) = some res ∧
      ((res = (q, m) ∧ ∀ j : Fin l.length, m ≤ d (l.get j))
       ∨ (∃ i : Fin l.length, res = (l.get i, d (l.get i)) ∧ d (l.get i) < m
           ∧ (∀ j : Fin l.length, d (l.get i) ≤ d (l.get j))
           ∧ (∀ j : Fin l.length, j < i → d (l.get i) < d (l.get j)))) := by
  induction l generalizing q m with
  | nil =>
    exact ⟨(q, m), rfl, Or.inl ⟨rfl, fun j => absurd j.2 (by simp)⟩⟩
  | cons p rest ih =>
    by_cases hd : d p < m
    · obtain ⟨res, hres, hcase⟩ := ih p (d p)
      refine ⟨res, ?_, ?_⟩
      · show closestBy d (p :: rest) (some (q, m)) = some res
        simp only [closestBy, if_pos hd]
        exact hres
      · rcases hcase with ⟨hre, hall⟩ | ⟨i, hre, hlt, hall, hfirst⟩
        · right
          refine ⟨⟨0, Nat.succ_pos _⟩, by simpa using hre, by simpa using hd, ?_, ?_⟩
          · intro j
            rcases j with ⟨jv, hj⟩
            cases jv with
            | zero => exact le_refl _
            | succ j' =>
              have := hall ⟨j', Nat.lt_of_succ_lt_succ hj⟩
              simpa using this
          · intro j hj
            exact absurd hj (by simp [Fin.lt_def])
        · right
          refine ⟨⟨i.1 + 1, Nat.succ_lt_succ i.2⟩, by simpa using hre, ?_, ?_, ?_⟩
          · have : d ((p :: rest).get ⟨i.1 + 1, Nat.succ_lt_succ i.2⟩) = d (rest.get i) := by
              simp
            rw [this]
            exact lt_trans hlt hd
          · intro j
            rcases j with ⟨jv, hj⟩
            cases jv with
            | zero =>
              have h0 : d ((p :: rest).get ⟨0, hj⟩) = d p := rfl
              have hi : d ((p :: rest).get ⟨i.1 + 1, Nat.succ_lt_succ i.2⟩) =
                  d (rest.get i) := by simp
              rw [h0, hi]
              exact le_of_lt hlt
            | succ j' =>
              have := hall ⟨j', Nat.lt_of_succ_lt_succ hj⟩
              simpa using this
          · intro j hj
            rcases j with ⟨jv, hjlen⟩
            cases jv with
            | zero =>
              have hi : d ((p :: rest).get ⟨i.1 + 1, Nat.succ_lt_succ i.2⟩) =
                  d (rest.get i) := by simp
              have h0 : d ((p :: rest).get ⟨0, hjlen⟩) = d p := rfl
              rw [hi, h0]
              exact hlt
            | succ j' =>
              have hj' : (⟨j', Nat.lt_of_succ_lt_succ hjlen⟩ : Fin rest.length) < i := by
                simpa [Fin.lt_def] using hj
              have := hfirst ⟨j', Nat.lt_of_succ_lt_succ hjlen⟩ hj'
              simpa using this
    · obtain ⟨res, hres, hcase⟩ := ih q m
      refine ⟨res, ?_, ?_⟩
      · show closestBy d (p :: rest) (some (q, m)) = some res
        simp only [closestBy, if_neg hd]
        exact hres
      · have hmp : m ≤ d p := le_of_not_lt hd
        rcases hcase with ⟨hre, hall⟩ | ⟨i, hre, hlt, hall, hfirst⟩
        · left
          refine ⟨hre, ?_⟩
          intro j
          rcases j with ⟨jv, hj⟩
          cases jv with
          | zero => exact hmp
          | succ j' =>
            have := hall ⟨j', Nat.lt_of_succ_lt_succ hj⟩
            simpa using this
        · right
          refine ⟨⟨i.1 + 1, Nat.succ_lt_succ i.2⟩, by simpa using hre, ?_, ?_, ?_⟩
          · have hi : d ((p :: rest).get ⟨i.1 + 1, Nat.succ_lt_succ i.2⟩) =
                d (rest.get i) := by simp
            rw [hi]
            exact hlt
          · intro j
            rcases j with ⟨jv, hj⟩
            cases jv with
            | zero =>
              have hi : d ((p :: rest).get ⟨i.1 + 1, Nat.succ_lt_succ i.2⟩) =
                  d (rest.get i) := by simp
              have h0 : d ((p :: rest).get ⟨0, hj⟩) = d p := rfl
              rw [hi, h0]
              exact le_trans (le_of_lt hlt) hmp
            | succ j' =>
              have := hall ⟨j', Nat.lt_of_succ_lt_succ hj⟩
              simpa using this
          · intro j hj
            rcases j with ⟨jv, hjlen⟩
            cases jv with
            | zero =>
              have hi : d ((p :: rest).get ⟨i.1 + 1, Nat.succ_lt_succ i.2⟩) =
                  d (rest.get i) := by simp
              have h0 : d ((p :: rest).get ⟨0, hjlen⟩) = d p := rfl
              rw [hi, h0]
              exact lt_of_lt_of_le hlt hmp
            | succ j' =>
              have hj' : (⟨j', Nat.lt_of_succ_lt_succ hjlen⟩ : Fin rest.length) < i := by
                simpa [Fin.lt_def] using hj
              have := hfirst ⟨j', Nat.lt_of_succ_lt_succ hjlen⟩ hj'
              simpa using this

theorem match_photo_xy_eq (max_d2 px py : ℚ) (pts : List DfPoint) (q : DfPoint) (m : ℚ)
    (hf : find_closest px py pts = some (q, m)) :
    match_photo_xy max_d2 pts (some (px, py)) =
      (if m ≤ max_d2 then MatchOutcome.matched q m else MatchOutcome.noMatch (some m)) := by
  show (match find_closest px py pts with
        | some qm => if qm.2 ≤ max_d2 then MatchOutcome.matched qm.1 qm.2
                     else MatchOutcome.noMatch (some qm.2)
        | none => MatchOutcome.noMatch none) =
      (if m ≤ max_d2 then MatchOutcome.matched q m else MatchOutcome.noMatch (some m))
  rw [hf]

/-- C6 (confirmed): on a non-empty point list the matcher scans linearly and
keeps the strict minimum squared Euclidean distance, so the selected point is
the first point attaining the minimum (ties keep the earlier point in parse
order); the result is a match exactly when that minimum is within the squared
threshold, otherwise a no-match outcome carrying the best distance found; a
photo without projected coordinates is reported 座標なし (not applicable). -/
theorem c6_matcher_nearest_first_tie (max_d2 px py : ℚ) (pts : List DfPoint)
    (h : pts ≠ []) :
    match_photo_xy max_d2 pts none = MatchOutcome.noCoords
    ∧ ∃ i : Fin pts.length,
      find_closest px py pts =
        some (pts.get i, dist2 px py (pts.get i).x (pts.get i).y)
      ∧ (∀ j : Fin pts.length,
          dist2 px py (pts.get i).x (pts.get i).y ≤ dist2 px py (pts.get j).x (pts.get j).y)
      ∧ (∀ j : Fin pts.length, j < i →
          dist2 px py (pts.get i).x (pts.get i).y < dist2 px py (pts.get j).x (pts.get j).y)
      ∧ (dist2 px py (pts.get i).x (pts.get i).y ≤ max_d2 →
          match_photo_xy max_d2 pts (some (px, py)) =
            MatchOutcome.matched (pts.get i) (dist2 px py (pts.get i).x (pts.get i).y))
      ∧ (¬ dist2 px py (pts.get i).x (pts.get i).y ≤ max_d2 →
          match_photo_xy max_d2 pts (some (px, py)) =
            MatchOutcome.noMatch (some (dist2 px py (pts.get i).x (pts.get i).y))) := by
  cases pts with
  | nil => exact absurd rfl h
  | cons p rest =>
    refine ⟨rfl, ?_⟩
    have hunfold : find_closest px py (p :: rest) =
        closestBy (fun q => dist2 px py q.x q.y) rest
          (some (p, dist2 px py p.x p.y)) := rfl
    obtain ⟨res, hres, hcase⟩ :=
      closestBy_some_spec (fun q => dist2 px py q.x q.y) rest p (dist2 px py p.x p.y)
    rcases hcase with ⟨hre, hall⟩ | ⟨i, hre, hlt, hall, hfirst⟩
    · refine ⟨⟨0, Nat.succ_pos _⟩, ?_, ?_, ?_, ?_, ?_⟩
      · rw [hunfold, hres, hre]
        simp
      · intro j
        rcases j with ⟨jv, hj⟩
        cases jv with
        | zero => exact le_refl _
        | succ j' =>
          have := hall ⟨j', Nat.lt_of_succ_lt_succ hj⟩
          simpa using this
      · intro j hj
        exact absurd hj (by simp [Fin.lt_def])
      · intro hle
        have hle' : dist2 px py p.x p.y ≤ max_d2 := hle
        have hout : match_photo_xy max_d2 (p :: rest) (some (px, py)) =
            MatchOutcome.matched p (dist2 px py p.x p.y) := by
          rw [match_photo_xy_eq max_d2 px py (p :: rest) p (dist2 px py p.x p.y)
            (by rw [hunfold, hres, hre]), if_pos hle']
        exact hout
      · intro hgt
        have hgt' : ¬ dist2 px py p.x p.y ≤ max_d2 := hgt
        have hout : match_photo_xy max_d2 (p :: rest) (some (px, py)) =
            MatchOutcome.noMatch (some (dist2 px py p.x p.y)) := by
          rw [match_photo_xy_eq max_d2 px py (p :: rest) p (dist2 px py p.x p.y)
            (by rw [hunfold, hres, hre]), if_neg hgt']
        exact hout
    · refine ⟨⟨i.1 + 1, Nat.succ_lt_succ i.2⟩, ?_, ?_, ?_, ?_, ?_⟩
      · rw [hunfold, hres, hre]
        simp
      · intro j
        rcases j with ⟨jv, hj⟩
        cases jv with
        | zero =>
          have hi : dist2 px py ((p :: rest).get ⟨i.1 + 1, Nat.succ_lt_succ i.2⟩).x
              ((p :: rest).get ⟨i.1 + 1, Nat.succ_lt_succ i.2⟩).y =
              dist2 px py (rest.get i).x (rest.get i).y := by simp
          rw [hi]
          exact le_of_lt hlt
        | succ j' =>
          have := hall ⟨j', Nat.lt_of_succ_lt_succ hj⟩
          simpa using this
      · intro j hj
        rcases j with ⟨jv, hjlen⟩
        cases jv with
        | zero =>
          have hi : dist2 px py ((p :: rest).get ⟨i.1 + 1, Nat.succ_lt_succ i.2⟩).x
              ((p :: rest).get ⟨i.1 + 1, Nat.succ_lt_succ i.2⟩).y =
              dist2 px py (rest.get i).x (rest.get i).y := by simp
          rw [hi]
          exact hlt
        | succ j' =>
          have hj' : (⟨j', Nat.lt_of_succ_lt_succ hjlen⟩ : Fin rest.length) < i := by
            simpa [Fin.lt_def] using hj
          have := hfirst ⟨j', Nat.lt_of_succ_lt_succ hjlen⟩ hj'
          simpa using this
      · intro hle
        have hfind : find_closest px py (p :: rest) =
            some ((p :: rest).get ⟨i.1 + 1, Nat.succ_lt_succ i.2⟩,
              dist2 px py ((p :: rest).get ⟨i.1 + 1, Nat.succ_lt_succ i.2⟩).x
                ((p :: rest).get ⟨i.1 + 1, Nat.succ_lt_succ i.2⟩).y) := by
          rw [hunfold, hres, hre]
          simp
        rw [match_photo_xy_eq max_d2 px py (p :: rest) _ _ hfind, if_pos hle]
      · intro hgt
        have hfind : find_closest px py (p :: rest) =
            some ((p :: rest).get ⟨i.1 + 1, Nat.succ_lt_succ i.2⟩,
              dist2 px py ((p :: rest).get ⟨i.1 + 1, Nat.succ_lt_succ i.2⟩).x
                ((p :: rest).get ⟨i.1 + 1, Nat.succ_lt_succ i.2⟩).y) := by
          rw [hunfold, hres, hre]
          simp
        rw [match_photo_xy_eq max_d2 px py (p :: rest) _ _ hfind, if_neg hgt]

/-- Witness for C6: the specification's scenario — points `BM1(100,200)` and
`BM2(500,200)`, photo at `(110,205)`: squared distance 125 to `BM1`; with
squared threshold `15² = 225` the photo matches `BM1`. -/
theorem c6_witness :
    match_photo_xy 225 [⟨"BM1", "", 100, 200⟩, ⟨"BM2", "", 500, 200⟩]
        (some (110, 205)) =
      MatchOutcome.matched ⟨"BM1", "", 100, 200⟩ 125 := by
  obtain ⟨-, i, hfind, -, -, hmatch, -⟩ :=
    c6_matcher_nearest_first_tie 225 110 205
      [⟨"BM1", "", 100, 200⟩, ⟨"BM2", "", 500, 200⟩] (by decide)
  have hcomp : find_closest 110 205 [⟨"BM1", "", 100, 200⟩, ⟨"BM2", "", 500, 200⟩] =
      some (⟨"BM1", "", 100, 200⟩, 125) := by
    norm_num [find_closest, closestBy, dist2]
  rw [hfind] at hcomp
  rw [Option.some_inj, Prod.mk.injEq] at hcomp
  obtain ⟨hq, hm⟩ := hcomp
  have := hmatch (by rw [hm]; norm_num)
  rw [hm, hq] at this
  exact this

/-! ## C7 -/

theorem probeEncodings_spec (file : String → Option (List DfPoint)) (l : List String) :
    (probeEncodings file l = none ↔ ∀ enc ∈ l, file enc = none ∨ file enc = some [])
    ∧ ∀ pts, probeEncodings file l = some pts →
        pts ≠ [] ∧ ∃ i : Fin l.length, file (l.get i) = some pts ∧
          ∀ j : Fin l.length, j < i → file (l.get j) = none ∨ file (l.get j) = some [] := by
  induction l with
  | nil =>
    refine ⟨⟨fun _ enc h => absurd h (List.not_mem_nil enc), fun _ => rfl⟩, ?_⟩
    intro pts h
    exact absurd h (by simp [probeEncodings])
  | cons e rest ih =>
    cases hfe : file e with
    | none =>
      have hstep : probeEncodings file (e :: rest) = probeEncodings file rest := by
        simp only [probeEncodings, hfe]
      constructor
      · rw [hstep, ih.1]
        constructor
        · intro hall enc hmem
          rcases List.mem_cons.mp hmem with h | h
          · exact Or.inl (h ▸ hfe)
          · exact hall enc h
        · intro hall enc hmem
          exact hall enc (List.mem_cons_of_mem e hmem)
      · intro pts hpts
        rw [hstep] at hpts
        obtain ⟨hne, i, hi, hprev⟩ := ih.2 pts hpts
        refine ⟨hne, ⟨i.1 + 1, Nat.succ_lt_succ i.2⟩, by simpa using hi, ?_⟩
        intro j hj
        rcases j with ⟨jv, hjlen⟩
        cases jv with
        | zero => exact Or.inl hfe
        | succ j' =>
          have hj' : (⟨j', Nat.lt_of_succ_lt_succ hjlen⟩ : Fin rest.length) < i := by
            simpa [Fin.lt_def] using hj
          have := hprev ⟨j', Nat.lt_of_succ_lt_succ hjlen⟩ hj'
          simpa using this
    | some pts0 =>
      by_cases hempty : pts0 = []
      · subst hempty
        have hstep : probeEncodings file (e :: rest) = probeEncodings file rest := by
          simp [probeEncodings, hfe]
        constructor
        · rw [hstep, ih.1]
          constructor
          · intro hall enc hmem
            rcases List.mem_cons.mp hmem with h | h
            · exact Or.inr (h ▸ hfe)
            · exact hall enc h
          · intro hall enc hmem
            exact hall enc (List.mem_cons_of_mem e hmem)
        · intro pts hpts
          rw [hstep] at hpts
          obtain ⟨hne, i, hi, hprev⟩ := ih.2 pts hpts
          refine ⟨hne, ⟨i.1 + 1, Nat.succ_lt_succ i.2⟩, by simpa using hi, ?_⟩
          intro j hj
          rcases j with ⟨jv, hjlen⟩
          cases jv with
          | zero => exact Or.inr hfe
          | succ j' =>
            have hj' : (⟨j', Nat.lt_of_succ_lt_succ hjlen⟩ : Fin rest.length) < i := by
              simpa [Fin.lt_def] using hj
            have := hprev ⟨j', Nat.lt_of_succ_lt_succ hjlen⟩ hj'
            simpa using this
      · have hstep : probeEncodings file (e :: rest) = some pts0 := by
          simp only [probeEncodings, hfe, if_neg hempty]
        constructor
        · rw [hstep]
          constructor
          · intro h
            exact absurd h (by simp)
          · intro hall
            rcases hall e (List.mem_cons_self e rest) with h | h
            · exact absurd (hfe ▸ h) (by simp)
            · rw [hfe] at h
              exact absurd (Option.some_inj.mp h) hempty
        · intro pts hpts
          rw [hstep, Option.some_inj] at hpts
          subst hpts
          refine ⟨hempty, ⟨0, Nat.succ_pos _⟩, by simpa using hfe, ?_⟩
          intro j hj
          exact absurd hj (by simp [Fin.lt_def])

/-- C7 (confirmed): the legacy parser probes the fixed candidate encoding
list in order; it reports a decode failure exactly when every candidate
either fails to decode or yields zero point records, and a success returns
the non-empty point list of the first candidate that decodes with at least
one point — it never succeeds with zero points. -/
theorem c7_encoding_probe (file : String → Option (List DfPoint)) :
    (load_sim_points_old file = none ↔
      ∀ enc ∈ encodings, file enc = none ∨ file enc = some [])
    ∧ ∀ pts, load_sim_points_old file = some pts →
        pts ≠ [] ∧ ∃ i : Fin encodings.length, file (encodings.get i) = some pts ∧
          ∀ j : Fin encodings.length, j < i →
            file (encodings.get j) = none ∨ file (encodings.get j) = some [] :=
  probeEncodings_spec file encodings

/-- Witness for C7: a file that decodes only under `cp932`, the third
candidate, with one point. -/
theorem c7_witness :
    ([⟨"1", "", 1, 2⟩] : List DfPoint) ≠ [] ∧
      ∃ i : Fin encodings.length,
        (fun enc => if enc = "cp932" then some ([⟨"1", "", 1, 2⟩] : List DfPoint)
                    else none) (encodings.get i) = some [⟨"1", "", 1, 2⟩] ∧
        ∀ j : Fin encodings.length, j < i →
          (fun enc => if enc = "cp932" then some ([⟨"1", "", 1, 2⟩] : List DfPoint)
                      else none) (encodings.get j) = none ∨
          (fun enc => if enc = "cp932" then some ([⟨"1", "", 1, 2⟩] : List DfPoint)
                      else none) (encodings.get j) = some [] :=
  (c7_encoding_probe
    (fun enc => if enc = "cp932" then some ([⟨"1", "", 1, 2⟩] : List DfPoint)
                else none)).2 [⟨"1", "", 1, 2⟩] (by decide)

/-! ## C9 -/

theorem a02Coords_eq_ref (lines : List String) :
    ∀ k idx, a02Coords lines idx k = a02RefCoords lines idx k := by
  intro k
  induction k with
  | zero => intro _; rfl
  | succ n ih =>
    intro idx
    simp only [a02Coords, a02RefCoords]
    cases hl : lines[idx]? with
    | none => exact ih (idx + 1)
    | some raw =>
      simp only [a02LineRead]
      by_cases hlen : 2 ≤ (pySplitComma (pyStrip raw)).length
      · simp only [if_pos hlen]
        cases hp0 : pyFloat? (pyStrip ((pySplitComma (pyStrip raw)).getD 0 "")) with
        | none => rfl
        | some yv =>
          cases hp1 : pyFloat? (pyStrip ((pySplitComma (pyStrip raw)).getD 1 "")) with
          | none => rfl
          | some xv => rw [ih (idx + 1)]
      · simp only [if_neg hlen]
        exact ih (idx + 1)

/-- Counterexample to C9 as stated: after `A02,1,L,1`, the following line
`A01,9,P,1,2` is declared a coordinate line by the claim ("the parser
consumes exactly point_count following lines regardless of their own tags"),
but its first field fails `float()`, the whole parcel is abandoned, only the
`A02` line is consumed, and the line is re-parsed as an `A01` point record:
the parse ends with one survey point and no parcel. -/
theorem c9_counterexample :
    load_sim_points_new 50 ["A02,1,L,1", "A01,9,P,1,2"] =
      some ⟨[⟨"9", "P", 1, 2, 0⟩], []⟩ := by decide

/-- C9 (amended): an `A02` record with parseable name and count fields whose
`point_count` following lines all read cleanly (each in-range line either has
fewer than two fields or its first two fields parse as floats) consumes
exactly `point_count + 1` lines — the cursor moves from `i` to
`i + point_count + 1` regardless of the consumed lines' tags — and stores the
parcel; and the coordinate reading agrees with the claim's reference reading:
first field `y`, second field `x`, stored `(x, y)`. -/
theorem c9_a02_reads_swapped (lines : List String) (fuel i : Nat) (st : SimParseState)
    (raw : String) (n : ℕ) (coords : List (ℚ × ℚ))
    (hline : lines[i]? = some raw)
    (hA01 : pyStartsWith (pyStrip raw) "A01" = false)
    (hA02 : pyStartsWith (pyStrip raw) "A02" = true)
    (hlen : 4 ≤ (pySplitComma (pyStrip raw)).length)
    (hcount : pyInt? (pyStrip ((pySplitComma (pyStrip raw)).getD 3 "")) = some (n : ℤ))
    (hcoords : a02Coords lines (i + 1) n = some coords)
    (hne : coords ≠ []) :
    simLoop lines (fuel + 1) i st =
      simLoop lines fuel (i + n + 1)
        { st with landparcel_data := st.landparcel_data ++
            [⟨pyStrip ((pySplitComma (pyStrip raw)).getD 2 ""), coords⟩] }
    ∧ a02Coords lines (i + 1) n = a02RefCoords lines (i + 1) n := by
  refine ⟨?_, a02Coords_eq_ref lines n (i + 1)⟩
  simp only [simLoop, hline, hA01, hA02, Bool.false_eq_true, if_false, if_true,
    eq_self_iff_true]
  simp only [stepA02, if_pos hlen, hcount, Int.toNat_natCast, hcoords, if_neg hne]

/-- Witness for C9: the record `A02,1,L,2` followed by two well-formed
coordinate lines and one unrelated record: exactly three lines are consumed
and the parcel's pairs are stored axis-swapped. -/
theorem c9_witness :
    simLoop ["A02,1,L,2", "10,20", "30,40", "A01,7,R,1,2"] 10 0 ⟨[], []⟩ =
      simLoop ["A02,1,L,2", "10,20", "30,40", "A01,7,R,1,2"] 9 3
        ⟨[], [⟨"L", [(20, 10), (40, 30)]⟩]⟩
    ∧ a02Coords ["A02,1,L,2", "10,20", "30,40", "A01,7,R,1,2"] 1 2 =
        a02RefCoords ["A02,1,L,2", "10,20", "30,40", "A01,7,R,1,2"] 1 2 :=
  c9_a02_reads_swapped ["A02,1,L,2", "10,20", "30,40", "A01,7,R,1,2"] 9 0 ⟨[], []⟩
    "A02,1,L,2" 2 [(20, 10), (40, 30)] (by decide) (by decide) (by decide) (by decide)
    (by decide) (by decide) (by decide)

/-! ## C10 -/

/-- Counterexample to C10 as stated: photo `a.jpg` is already matched
(matching cell `BM1`, name `BM1-2.jpg`) when `auto_match_by_gps` runs, and it
is indeed counted as skipped at its own iteration — yet the pass changes it:
assigning the later unmatched photo `b.jpg` to the same point collides with
`a.jpg`'s base name and demotes it, blanking its assigned filename, matching
point and distance and restoring its stored coordinates to `(7, 8)`. -/
theorem c10_counterexample :
    (stCollision.rows.getD 0 rowP2).matching = "BM1"
    ∧ (stCollision.rows.getD 0 rowP2).newName = "BM1-2.jpg"
    ∧ auto_match_by_gps cfgDefault [ptBM1] 100 stCollision =
        { rows := [⟨"a.jpg", "", "近景", "", none⟩,
                   ⟨"b.jpg", "BM1-2.jpg", "近景", "BM1", some 2⟩],
          gps := [("a.jpg", ⟨some 7, some 8, some 7, some 8⟩),
                  ("b.jpg", ⟨some 100, some 200, some 101, some 201⟩)] } := by
  refine ⟨by decide, by decide, ?_⟩
  have hd : dist2 101 201 ptBM1.x ptBM1.y = 2 := by norm_num [dist2, ptBM1]
  have hrange : (List.range stCollision.rows.length) = [0, 1] := by decide
  unfold auto_match_by_gps
  rw [hrange]
  have h0 : auto_match_step cfgDefault [ptBM1] 100 stCollision 0 = stCollision := rfl
  simp only [List.foldl_cons, List.foldl_nil, h0]
  have hstep1 : auto_match_step cfgDefault [ptBM1] 100 stCollision 1 =
      (if dist2 101 201 ptBM1.x ptBM1.y ≤ 100 then
         (assign_photo cfgDefault "BM1" "b.jpg" "近景" ptBM1
           (dist2 101 201 ptBM1.x ptBM1.y) stCollision).1
       else stCollision) := rfl
  rw [hstep1, hd, if_pos (by norm_num : (2:ℚ) ≤ 100)]
  decide

/-- C10 (amended): a photo whose matching cell is non-empty when its own
iteration of the GPS auto-matching pass is reached is counted as skipped and
the iteration leaves the entire state unchanged — the pass never directly
re-matches it, however close any control point is; its fields can change only
through the demotion triggered by a later photo's assignment. -/
theorem c10_matched_photo_skipped (cfg : NamingConfig) (simPts : List SimPoint)
    (max_d2 : ℚ) (st : NamingState) (idx : Nat) (row : PhotoRow)
    (hrow : st.rows[idx]? = some row) (hm : row.matching ≠ "") :
    auto_match_step cfg simPts max_d2 st idx = st := by
  unfold auto_match_step
  rw [hrow]
  exact if_pos hm

/-- Witness for C10: the matched photo `a.jpg` at index 0 is skipped and its
iteration changes nothing. -/
theorem c10_witness :
    auto_match_step cfgDefault [ptBM1] 100 stCollision 0 = stCollision :=
  c10_matched_photo_skipped cfgDefault [ptBM1] 100 stCollision 0 rowP1 rfl (by decide)

end GPSSCAN
